import Mathlib

/-!
Verification of the bundler core: the asset data model, the load pipeline
(`loadAsset`), the bundle-tree builder (`createBundleTree` /
`moveAssetToBundle`), the orphan sweep, the update notifier, and the
top-level error handling of `bundle()`.

The JavaScript source is embedded shallowly:
* JS `Map` objects become insertion-ordered association lists (`setAssoc`
  keeps the position of an existing key, like `Map.prototype.set`);
* JS `Set` objects become duplicate-free lists (`addSet` appends only a
  missing element, like `Set.prototype.add`);
* the object heap becomes an arena `List (Nat × Asset)` keyed by asset id,
  and bundles likewise;
* `async` control flow is sequentialized (the coordinator is single
  threaded; `Promise.all` over dependencies is modelled as a left-to-right
  fold), and recursion is driven by explicit fuel, with `Option` as the
  failure monad: `none` models a thrown exception or fuel exhaustion.
-/

namespace ACFT

/-! ## Association lists modelling JS `Map`, lists modelling JS `Set` -/

/-- `Map.prototype.set`: replace in place if the key is present, else append. -/
def setAssoc {κ α : Type} [DecidableEq κ] : List (κ × α) → κ → α → List (κ × α)
  | [], k, v => [(k, v)]
  | (k', v') :: rest, k, v =>
    if k = k' then (k, v) :: rest else (k', v') :: setAssoc rest k v

/-- `Map.prototype.get`: the value at a key, if present. -/
def getAssoc {κ α : Type} [DecidableEq κ] : List (κ × α) → κ → Option α
  | [], _ => none
  | (k', v) :: rest, k => if k = k' then some v else getAssoc rest k

/-- `Map.prototype.delete`. -/
def delAssoc {κ α : Type} [DecidableEq κ] (m : List (κ × α)) (k : κ) : List (κ × α) :=
  m.filter (fun kv => kv.1 ≠ k)

/-- `Set.prototype.add`: append the element only when it is missing. -/
def addSet {α : Type} [DecidableEq α] (l : List α) (x : α) : List α :=
  if x ∈ l then l else l ++ [x]

/-- `Set.prototype.delete`. -/
def removeSet {α : Type} [DecidableEq α] (l : List α) (x : α) : List α :=
  l.filter (fun y => y ≠ x)

/-! ## Paths

The source uses Node's `path` module (an external library).  The helpers
below model its POSIX behaviour for the inputs the bundler feeds it:
absolute, `/`-separated importer paths without a trailing slash.
-/

/-- Split a character list at `/` separators (like `"…".split("/")`). -/
def splitSlash : List Char → List Char → List String
  | acc, [] => [String.mk acc.reverse]
  | acc, c :: rest =>
    if c = '/' then String.mk acc.reverse :: splitSlash [] rest
    else splitSlash (c :: acc) rest

/-- A path as its `/`-separated component list. -/
def splitPath (s : String) : List String :=
  splitSlash [] s.data

/-- Join components with `/`. -/
def joinSlash : List String → String
  | [] => ""
  | [x] => x
  | x :: rest => x ++ "/" ++ joinSlash rest

/-- Whether a path is absolute. -/
def startsSlash (s : String) : Bool :=
  match s.data with
  | '/' :: _ => true
  | _ => false

/-- Normalize a component list: drop empty and `.` components, let `..`
pop, as Node does for absolute paths. -/
def normComps : List String → List String → List String
  | stack, [] => stack.reverse
  | stack, c :: rest =>
    if c = "" ∨ c = "." then normComps stack rest
    else if c = ".." then
      match stack with
      | [] => normComps [] rest
      | _ :: tl => normComps tl rest
    else normComps (c :: stack) rest

/-- Node `path.resolve(dir, url)` for an absolute base directory `dir`. -/
def pathResolve (dir url : String) : String :=
  let comps :=
    if startsSlash url then splitPath url
    else splitPath dir ++ splitPath url
  "/" ++ joinSlash (normComps [] comps)

/-- Node `path.dirname` (for paths without a trailing slash). -/
def pathDirname (s : String) : String :=
  let parts := splitPath s
  if parts.length ≤ 1 then "."
  else
    let j := joinSlash parts.dropLast
    if j = "" then "/" else j

/-- Node `path.basename` (for paths without a trailing slash). -/
def pathBasename (s : String) : String :=
  match (splitPath s).reverse with
  | [] => ""
  | c :: _ => c

/-- The characters after the last `.` of a list, if any. -/
def lastDotSuffix : List Char → Option (List Char)
  | [] => none
  | c :: rest =>
    match lastDotSuffix rest with
    | some r => some r
    | none => if c = '.' then some rest else none

/-- Node `path.extname`: the extension of the basename including the dot;
a dot at position 0 of the basename (hidden file) does not count. -/
def pathExtname (s : String) : String :=
  match (pathBasename s).data with
  | [] => ""
  | _ :: rest =>
    match lastDotSuffix rest with
    | some suf => "." ++ String.mk suf
    | none => ""

/-- Strip the common leading components of two component lists. -/
def stripCommon : List String → List String → List String × List String
  | a :: as', b :: bs' =>
    if a = b then stripCommon as' bs' else (a :: as', b :: bs')
  | as', bs' => (as', bs')

/-- Node `path.relative(from, to)` for absolute arguments. -/
def pathRelative (f t : String) : String :=
  let fc := normComps [] (splitPath f)
  let tc := normComps [] (splitPath t)
  let (fr, tr) := stripCommon fc tc
  joinSlash (List.replicate fr.length ".." ++ tr)

/-- Node `path.join` restricted to the shapes the bundler uses. -/
def pathJoin (a b : String) : String :=
  if a = "" then b else if b = "" then a else a ++ "/" ++ b

/-! ## The `Asset` data model (src/Asset.js) -/

/-- A dependency record `{name, dynamic?, includedInParent?, loc?}` as
produced by `Object.assign({name}, opts)` in `Asset.addDependency`. -/
structure Dep where
  name : String
  dynamic : Bool
  includedInParent : Bool
  loc : Option Nat
deriving DecidableEq

/-- The per-asset state of `class Asset` (src/Asset.js).  The opaque
`package`, `options` and `encoding` fields play no role in any claim and
are omitted; `id` is the arena key. -/
structure Asset where
  id : Nat
  name : String
  basename : String
  type : String
  processed : Bool
  contents : Option String
  ast : Option String
  generated : Option (List (String × String))
  hash : Option String
  parentDeps : List Dep
  dependencies : List (String × Dep)
  depAssets : List (String × Nat)
  parentBundle : Option Nat
  bundles : List Nat
deriving DecidableEq

/-- `path.extname(name).slice(1)`: the extension without its dot. -/
def typeOfName (name : String) : String :=
  match (pathExtname name).data with
  | [] => ""
  | _ :: cs => String.mk cs

/-- The `Asset` constructor: fresh id, fields initialized as in
`constructor(name, pkg, options)`. -/
def mkAsset (id : Nat) (name : String) : Asset :=
  { id := id
    name := name
    basename := pathBasename name
    type := typeOfName name
    processed := false
    contents := none
    ast := none
    generated := none
    hash := none
    parentDeps := []
    dependencies := []
    depAssets := []
    parentBundle := none
    bundles := [] }

/-- `Asset.invalidate()`. -/
def Asset.invalidate (a : Asset) : Asset :=
  { a with
    processed := false
    contents := none
    ast := none
    generated := none
    hash := none
    dependencies := []
    depAssets := [] }

/-- `Asset.invalidateBundle()`. -/
def Asset.invalidateBundle (a : Asset) : Asset :=
  { a with
    parentBundle := none
    bundles := []
    parentDeps := [] }

/-- `Asset.addDependency(name, opts)`:
`this.dependencies.set(name, Object.assign({name}, opts))`. -/
def Asset.addDependency (a : Asset) (name : String)
    (dynamic includedInParent : Bool) (loc : Option Nat) : Asset :=
  { a with
    dependencies :=
      setAssoc a.dependencies name
        { name := name, dynamic := dynamic
          includedInParent := includedInParent, loc := loc } }

/-- `PROTOCOL_RE = /^[a-z]+:/`: a lowercase ASCII letter test. -/
def isSchemeChar (c : Char) : Bool :=
  'a' ≤ c && c ≤ 'z'

/-- After one scheme letter, accept further letters until a colon. -/
def schemeTail : List Char → Bool
  | [] => false
  | c :: cs => if c = ':' then true else if isSchemeChar c then schemeTail cs else false

/-- `PROTOCOL_RE.test(url)`. -/
def protocolTest (s : String) : Bool :=
  match s.data with
  | [] => false
  | c :: cs => isSchemeChar c && schemeTail cs

/-- `Asset.addURLDependency(url, from = this.name)`.  `md5` is the external
hash from `utils/md5`, passed in as a parameter.  Returns the mutated asset
together with the returned string. -/
def Asset.addURLDependency (md5 : String → String) (a : Asset)
    (url : String) (fromPath : String) : Asset × String :=
  if url = "" ∨ protocolTest url then (a, url)
  else
    let resolved := pathResolve (pathDirname fromPath) url
    let depName := "./" ++ pathRelative (pathDirname a.name) resolved
    (a.addDependency depName true false none, md5 resolved ++ pathExtname url)

/-! ## The bundler state (src/Bundler.js)

The coordinator's heap is modelled as two arenas: `assets` maps asset ids
to `Asset` records and `bundles` maps bundle ids to `Bundle` records.
`loadedAssets` is the `path → Asset` map of the Bundler (values are asset
ids), `watched` the watcher's registered paths, and `jobs` the log of
cache-read-or-worker-farm jobs issued by `loadAsset` (one entry per
dispatch, recording the asset id). -/

/-- A bundle-tree node.  Modelled from the spec: the `Bundle` class lives
in `src/Bundle.js`, which is not part of the sources; its fields follow
§3 of the spec (`type`, `name`, `entryAsset`, `assets`, `parentBundle`,
`childBundles`, `siblingBundles`). -/
structure Bundle where
  type : String
  name : String
  entryAsset : Option Nat
  assets : List Nat
  parentBundle : Option Nat
  childBundles : List Nat
  siblingBundles : List (String × Nat)
deriving DecidableEq

/-- The mutable coordinator state of `class Bundler`. -/
structure BundlerState where
  assets : List (Nat × Asset)
  loadedAssets : List (String × Nat)
  bundles : List (Nat × Bundle)
  nextAssetId : Nat
  nextBundleId : Nat
  watched : List String
  jobs : List Nat
deriving DecidableEq

/-- Update the asset stored under `aid` in place. -/
def updAsset (st : BundlerState) (aid : Nat) (f : Asset → Asset) : BundlerState :=
  match getAssoc st.assets aid with
  | none => st
  | some a => { st with assets := setAssoc st.assets aid (f a) }

/-- Update the bundle stored under `bid` in place. -/
def updBundle (st : BundlerState) (bid : Nat) (f : Bundle → Bundle) : BundlerState :=
  match getAssoc st.bundles bid with
  | none => st
  | some b => { st with bundles := setAssoc st.bundles bid (f b) }

/-! ## The load pipeline (`resolveAsset`, `loadAsset`)

`LoadEnv` packages the external collaborators of the pipeline: the
resolver (`resolveFn name parent` returns the absolute path, `none`
modelling `ResolveFailed`), the cache (`cacheRead`, `none` is a miss or a
disabled cache), the worker farm (`farmRun`), the optional delegate's
implicit dependencies, and whether a watcher is attached. -/

/-- The worker's pure output `{generated, hash, dependencies}`. -/
structure ProcessedResult where
  generated : List (String × String)
  hash : String
  dependencies : List Dep
deriving DecidableEq

structure LoadEnv where
  watch : Bool
  resolveFn : String → String → Option String
  cacheRead : String → Option ProcessedResult
  farmRun : String → ProcessedResult
  implicitDeps : String → List Dep

/-- `Bundler.resolveAsset(name, parent)`: resolve, return the shared node
when the path is already loaded, otherwise construct the asset via the
parser, register it in `loadedAssets` and with the watcher. -/
def resolveAsset (env : LoadEnv) (st : BundlerState) (name parent : String) :
    Option (BundlerState × Nat) :=
  match env.resolveFn name parent with
  | none => none
  | some path =>
    match getAssoc st.loadedAssets path with
    | some aid => some (st, aid)
    | none =>
      let aid := st.nextAssetId
      some ({ st with
          assets := setAssoc st.assets aid (mkAsset aid path)
          loadedAssets := setAssoc st.loadedAssets path aid
          nextAssetId := aid + 1
          watched := if env.watch then addSet st.watched path else st.watched },
        aid)

mutual

/-- `Bundler.loadAsset(asset)`: return immediately when `processed`;
otherwise mark processed, issue the (cache-read-or-worker-farm) job,
record `generated` and `hash`, then process the dependency list.
Fuel drives the recursion; `none` models a thrown error or exhausted
fuel. -/
def loadAsset (env : LoadEnv) : Nat → BundlerState → Nat → Option BundlerState
  | 0, _, _ => none
  | fuel + 1, st, aid =>
    match getAssoc st.assets aid with
    | none => none
    | some asset =>
      if asset.processed then some st
      else
        let st1 := updAsset st aid (fun a => { a with processed := true })
        let pr :=
          match env.cacheRead asset.name with
          | some p => p
          | none => env.farmRun asset.name
        let st2 := { st1 with jobs := st1.jobs ++ [aid] }
        let st3 := updAsset st2 aid
          (fun a => { a with generated := some pr.generated, hash := some pr.hash })
        loadDeps env fuel st3 aid asset.name (pr.dependencies ++ env.implicitDeps asset.name)

/-- The `Promise.all(dependencies.map(...))` fan-out of `loadAsset`,
sequentialized left to right (the coordinator is single threaded). -/
def loadDeps (env : LoadEnv) : Nat → BundlerState → Nat → String → List Dep → Option BundlerState
  | 0, _, _, _, _ => none
  | fuel + 1, st, aid, parentName, deps =>
    match deps with
    | [] => some st
    | dep :: rest =>
      match processDep env fuel st aid parentName dep with
      | none => none
      | some st' => loadDeps env fuel st' aid parentName rest

/-- The body of the per-dependency callback in `loadAsset`: resolve the
dependency (`resolveDep`); for an `includedInParent` edge alias
`loadedAssets[dep.name]` to the parent and do not recurse; otherwise
record the edge in `dependencies`/`depAssets` and recursively load the
child. -/
def processDep (env : LoadEnv) : Nat → BundlerState → Nat → String → Dep → Option BundlerState
  | 0, _, _, _, _ => none
  | fuel + 1, st, aid, parentName, dep =>
    match resolveAsset env st dep.name parentName with
    | none => none
    | some (st1, childId) =>
      if dep.includedInParent then
        some { st1 with loadedAssets := setAssoc st1.loadedAssets dep.name aid }
      else
        let st2 := updAsset st1 aid (fun a =>
          { a with
            dependencies := setAssoc a.dependencies dep.name dep
            depAssets := setAssoc a.depAssets dep.name childId })
        loadAsset env fuel st2 childId

end

/-- A sequence of further `loadAsset` calls (models repeated and fanned-out
invocations during one build). -/
def loadMany (env : LoadEnv) (fuel : Nat) : BundlerState → List Nat → Option BundlerState
  | st, [] => some st
  | st, aid :: rest =>
    match loadAsset env fuel st aid with
    | none => none
    | some st' => loadMany env fuel st' rest

/-! ## Invariants of the load pipeline -/

/-- Whether the asset stored under `aid` is marked processed. -/
def processedB (st : BundlerState) (aid : Nat) : Bool :=
  match getAssoc st.assets aid with
  | some a => a.processed
  | none => false

/-- Arena keys stay below the id counter (fresh ids never collide). -/
def AssetIdsWF (st : BundlerState) : Prop :=
  ∀ kv ∈ st.assets, kv.1 < st.nextAssetId

/-- The job log is duplicate free and only processed assets appear in it. -/
def JobsInv (st : BundlerState) : Prop :=
  AssetIdsWF st ∧ st.jobs.Nodup ∧ ∀ aid ∈ st.jobs, processedB st aid = true

/-- Every entry of every asset's `dependencies` map is keyed by the
record's own `name` and has a matching entry in `depAssets`. -/
def DepMapsInv (st : BundlerState) : Prop :=
  ∀ kv ∈ st.assets, ∀ kd ∈ kv.2.dependencies,
    kd.2.name = kd.1 ∧ (getAssoc kv.2.depAssets kd.1).isSome = true

/-- What one (sub)step of the load pipeline may do to the state: the job
log only grows, `JobsInv` is preserved and processed marks are stable,
and `DepMapsInv` is preserved. -/
def LoadStep (st st' : BundlerState) : Prop :=
  st.jobs <+: st'.jobs ∧
  (JobsInv st → JobsInv st' ∧ ∀ aid, processedB st aid = true → processedB st' aid = true) ∧
  (DepMapsInv st → DepMapsInv st')

instance (st : BundlerState) : Decidable (AssetIdsWF st) :=
  inferInstanceAs (Decidable (∀ kv ∈ st.assets, kv.1 < st.nextAssetId))

instance (st : BundlerState) : Decidable (JobsInv st) :=
  inferInstanceAs (Decidable (AssetIdsWF st ∧ st.jobs.Nodup ∧
    ∀ aid ∈ st.jobs, processedB st aid = true))

instance (st : BundlerState) : Decidable (DepMapsInv st) :=
  inferInstanceAs (Decidable (∀ kv ∈ st.assets, ∀ kd ∈ kv.2.dependencies,
    kd.2.name = kd.1 ∧ (getAssoc kv.2.depAssets kd.1).isSome = true))

/-! ## Orphan sweep (`findOrphanAssets`, `unloadOrphanedAssets`) -/

/-- `Bundler.findOrphanAssets()`: the values of `loadedAssets` whose
`parentBundle` is unset, in iteration order. -/
def findOrphanAssets (st : BundlerState) : List Nat :=
  (st.loadedAssets.map Prod.snd).filter (fun aid =>
    match getAssoc st.assets aid with
    | some a => a.parentBundle.isNone
    | none => false)

/-- `Bundler.unloadAsset(asset)`: drop `loadedAssets[asset.name]` and,
when a watcher is attached, unwatch `asset.name`. -/
def unloadAsset (watchOn : Bool) (st : BundlerState) (aid : Nat) : BundlerState :=
  match getAssoc st.assets aid with
  | none => st
  | some a =>
    { st with
      loadedAssets := delAssoc st.loadedAssets a.name
      watched := if watchOn then removeSet st.watched a.name else st.watched }

/-- `Bundler.unloadOrphanedAssets()`. -/
def unloadOrphanedAssets (watchOn : Bool) (st : BundlerState) : BundlerState :=
  (findOrphanAssets st).foldl (unloadAsset watchOn) st

/-! ## The update notifier (`HMRServer.emitUpdate`) -/

/-- One element of the `assets` array of an update message. -/
structure UpdateEntry where
  id : Nat
  generated : Option (List (String × String))
  deps : List (String × Nat)
deriving DecidableEq

/-- The `deps` object of an entry: `deps[dep.name] = mod.id` for each
dependency record, where `mod = asset.depAssets.get(dep.name)`; `none`
models the TypeError JS would throw on a missing `mod`. -/
def depsObjGo (depAssets : List (String × Nat)) :
    List (String × Dep) → Option (List (String × Nat))
  | [] => some []
  | (_, d) :: rest =>
    match getAssoc depAssets d.name with
    | none => none
    | some mid => (depsObjGo depAssets rest).map (fun l => (d.name, mid) :: l)

/-- The per-asset entry `{id, generated, deps}` of an update message. -/
def assetEntry (st : BundlerState) (aid : Nat) : Option UpdateEntry :=
  match getAssoc st.assets aid with
  | none => none
  | some a =>
    match depsObjGo a.depAssets a.dependencies with
    | none => none
    | some deps => some { id := a.id, generated := a.generated, deps := deps }

/-- The update message `{type: "update", assets: [...]}`. -/
structure Update where
  type : String
  assets : List UpdateEntry
deriving DecidableEq

/-- The entries for a list of asset ids, in order. -/
def entriesOf (st : BundlerState) : List Nat → Option (List UpdateEntry)
  | [] => some []
  | aid :: rest =>
    match assetEntry st aid with
    | none => none
    | some e => (entriesOf st rest).map (fun l => e :: l)

/-- `HMRServer.emitUpdate(assets)`: build the single JSON message. -/
def emitUpdate (st : BundlerState) (aids : List Nat) : Option Update :=
  (entriesOf st aids).map (fun es => { type := "update", assets := es })

/-- The send loop of `emitUpdate`: the same message goes to every
connected client. -/
def broadcastUpdate {γ : Type} (clients : List γ) (msg : Update) : List (γ × Update) :=
  clients.map (fun c => (c, msg))

/-- The asset list `[...this.findOrphanAssets(), asset]` that `buildAsset`
hands to `emitUpdate` on a non-initial build. -/
def hmrAssetList (st : BundlerState) (changed : Nat) : List Nat :=
  findOrphanAssets st ++ [changed]

/-! ## Bundle operations

`Bundle.js` is not among the sources; the bundle methods used by
`createBundleTree` and `moveAssetToBundle` are modelled from the spec
(§3 and §4.6). -/

/-- Modelled from the spec: `Asset.generateBundleName(isEntryAsset)` is
not among the sources; per §3/§4.6 the bundle name derives from the entry
asset's name, hash and type.  No claim depends on the exact string. -/
def generateBundleName (a : Asset) (isEntryAsset : Bool) : String :=
  if isEntryAsset then pathBasename a.name
  else
    (match a.hash with
     | some h => h
     | none => a.basename) ++ "." ++ a.type

/-- Modelled from the spec: `Bundle.addAsset(asset)` adds the asset to the
bundle's asset set and the bundle to the asset's bundle set. -/
def addAssetToBundle (st : BundlerState) (bid aid : Nat) : BundlerState :=
  let st1 := updBundle st bid (fun b => { b with assets := addSet b.assets aid })
  updAsset st1 aid (fun a => { a with bundles := addSet a.bundles bid })

/-- Modelled from the spec: `Bundle.removeAsset(asset)`. -/
def removeAssetFromBundle (st : BundlerState) (bid aid : Nat) : BundlerState :=
  let st1 := updBundle st bid (fun b => { b with assets := removeSet b.assets aid })
  updAsset st1 aid (fun a => { a with bundles := removeSet a.bundles bid })

/-- Modelled from the spec: `Bundle.createChildBundle(type, name)` creates
a fresh bundle parented to this one. -/
def createChildBundle (st : BundlerState) (bid : Nat) (ty nm : String) :
    BundlerState × Nat :=
  let nid := st.nextBundleId
  let nb : Bundle :=
    { type := ty, name := nm, entryAsset := none, assets := []
      parentBundle := some bid, childBundles := [], siblingBundles := [] }
  let st1 := { st with bundles := setAssoc st.bundles nid nb, nextBundleId := nid + 1 }
  (updBundle st1 bid (fun b => { b with childBundles := addSet b.childBundles nid }), nid)

/-- Modelled from the spec: `Bundle.getSiblingBundle(type)` — the bundle
itself when the type matches, otherwise the sibling bundle of that type,
created on demand (as a child bundle, recorded in `siblingBundles`). -/
def getSiblingBundle (st : BundlerState) (bid : Nat) (ty : String) :
    Option (BundlerState × Nat) :=
  match getAssoc st.bundles bid with
  | none => none
  | some b =>
    if b.type = ty then some (st, bid)
    else
      match getAssoc b.siblingBundles ty with
      | some sid => some (st, sid)
      | none =>
        let p := createChildBundle st bid ty (b.name ++ "." ++ ty)
        some
          (updBundle p.1 bid
            (fun b' => { b' with siblingBundles := setAssoc b'.siblingBundles ty p.2 }),
           p.2)

/-- The ancestor chain of a bundle (the bundle itself first), following
`parentBundle` for at most `fuel` steps. -/
def ancestorChain (st : BundlerState) : Nat → Nat → List Nat
  | 0, _ => []
  | fuel + 1, bid =>
    bid ::
      (match getAssoc st.bundles bid with
       | none => []
       | some b =>
         match b.parentBundle with
         | none => []
         | some p => ancestorChain st fuel p)

/-- Modelled from the spec: `Bundle.findCommonAncestor(other)` — collect
this bundle's ancestors, then walk `other`'s chain until a member of that
set is hit. -/
def findCommonAncestor (st : BundlerState) (this other : Nat) : Option Nat :=
  let ca := ancestorChain st (st.bundles.length + 1) this
  (ancestorChain st (st.bundles.length + 1) other).find? (fun x => x ∈ ca)

/-! ## The bundle-tree builder (`createBundleTree`, `moveAssetToBundle`) -/

/-- The `for (let bundle of Array.from(asset.bundles))` loop of
`moveAssetToBundle`: remove the asset from each bundle it is in and
re-add it to the target's sibling bundle of that bundle's type. -/
def moveMembership (aid commonId : Nat) : BundlerState → List Nat → Option BundlerState
  | st, [] => some st
  | st, bid :: rest =>
    match getAssoc st.bundles bid with
    | none => none
    | some b =>
      let st1 := removeAssetFromBundle st bid aid
      match getSiblingBundle st1 commonId b.type with
      | none => none
      | some (st2, sib) => moveMembership aid commonId (addAssetToBundle st2 sib aid) rest

mutual

/-- `Bundler.moveAssetToBundle(asset, commonBundle)`: re-home the asset's
bundle memberships, set its `parentBundle` to the target, then recursively
move every dependency whose `parentBundle` is the asset's old parent. -/
def moveAssetToBundle : Nat → BundlerState → Nat → Nat → Option BundlerState
  | 0, _, _, _ => none
  | fuel + 1, st, aid, commonId =>
    match getAssoc st.assets aid with
    | none => none
    | some asset =>
      match moveMembership aid commonId st asset.bundles with
      | none => none
      | some st1 =>
        let st2 := updAsset st1 aid (fun a => { a with parentBundle := some commonId })
        moveChildren fuel st2 (asset.depAssets.map Prod.snd) asset.parentBundle commonId

/-- The `for (let child of asset.depAssets.values())` loop of
`moveAssetToBundle`. -/
def moveChildren : Nat → BundlerState → List Nat → Option Nat → Nat → Option BundlerState
  | 0, _, _, _, _ => none
  | fuel + 1, st, children, oldB, commonId =>
    match children with
    | [] => some st
    | c :: rest =>
      match getAssoc st.assets c with
      | none => none
      | some child =>
        if child.parentBundle = oldB then
          match moveAssetToBundle fuel st c commonId with
          | none => none
          | some st' => moveChildren fuel st' rest oldB commonId
        else moveChildren fuel st rest oldB commonId

end

/-- The shared-asset branch of `createBundleTree` (step 2 of §4.6): the
asset already has a `parentBundle`, so hoist it to the lowest common
ancestor when the types allow it and return without recursing. -/
def cbtHoist (fuel : Nat) (st0 : BundlerState) (aid : Nat) (bundleId : Option Nat)
    (pb : Nat) : Option (BundlerState × Option Nat) :=
  if bundleId = some pb then some (st0, none)
  else
    match bundleId with
    | none => none
    | some b =>
      match findCommonAncestor st0 b pb with
      | none => none
      | some common =>
        match getAssoc st0.bundles pb, getAssoc st0.bundles common with
        | some pbB, some cB =>
          if pb ≠ common ∧ pbB.type = cB.type then
            (moveAssetToBundle fuel st0 aid common).map (fun st' => (st', none))
          else some (st0, none)
        | _, _ => none

/-- The root-bundle step of `createBundleTree` (step 3 of §4.6): create
the root bundle when no current bundle exists. -/
def cbtRootStep (outDir : String) (st0 : BundlerState) (aid : Nat)
    (bundleId : Option Nat) (asset : Asset) : BundlerState × Nat :=
  match bundleId with
  | some b => (st0, b)
  | none =>
    let nid := st0.nextBundleId
    let nb : Bundle :=
      { type := asset.type
        name := pathJoin outDir (generateBundleName asset true)
        entryAsset := some aid, assets := []
        parentBundle := none, childBundles := [], siblingBundles := [] }
    ({ st0 with bundles := setAssoc st0.bundles nid nb, nextBundleId := nid + 1 }, nid)

/-- The dynamic-import step of `createBundleTree` (step 4 of §4.6):
create a child bundle rooted at the asset for a dynamic dependency. -/
def cbtDynStep (outDir : String) (rs : BundlerState × Nat) (aid : Nat)
    (dep : Option Dep) (asset : Asset) : BundlerState × Nat :=
  match dep with
  | some d =>
    if d.dynamic then
      let p := createChildBundle rs.1 rs.2 asset.type
        (pathJoin outDir (generateBundleName asset false))
      (updBundle p.1 p.2 (fun b => { b with entryAsset := some aid }), p.2)
    else rs
  | none => rs

/-- The `if (dep) asset.parentDeps.add(dep)` prologue of
`createBundleTree`, as a named function for use in specifications. -/
def parentDepsUpd (st : BundlerState) (aid : Nat) : Option Dep → BundlerState
  | some d => updAsset st aid (fun a => { a with parentDeps := addSet a.parentDeps d })
  | none => st

mutual

/-- `Bundler.createBundleTree(asset, dep, bundle)`.  Returns the updated
state and the JS return value (`some` of the bundle in the normal path,
`none` for the early `return;` of an already-parented asset). -/
def createBundleTree (outDir : String) :
    Nat → BundlerState → Nat → Option Dep → Option Nat → Option (BundlerState × Option Nat)
  | 0, _, _, _, _ => none
  | fuel + 1, st, aid, dep, bundleId =>
    match getAssoc st.assets aid with
    | none => none
    | some asset =>
      let st0 :=
        match dep with
        | some d => updAsset st aid (fun a => { a with parentDeps := addSet a.parentDeps d })
        | none => st
      match asset.parentBundle with
      | some pb => cbtHoist fuel st0 aid bundleId pb
      | none => cbtVisit outDir fuel st0 aid dep bundleId asset
termination_by structural fuel _ _ _ _ => fuel

/-- The unparented-asset path of `createBundleTree` (steps 3–8 of §4.6):
pick or create the effective bundle, add the asset to that bundle's
sibling of the asset's own type (and to the bundle itself when
`generated[bundle.type]` is non-null), set `parentBundle`, and recurse
into the dependencies.  (Fuel is burnt on entry to keep the mutual
recursion structural.) -/
def cbtVisit (outDir : String) :
    Nat → BundlerState → Nat → Option Dep → Option Nat → Asset →
    Option (BundlerState × Option Nat)
  | 0, _, _, _, _, _ => none
  | fuel + 1, st0, aid, dep, bundleId, asset =>
    let ds := cbtDynStep outDir (cbtRootStep outDir st0 aid bundleId asset) aid dep asset
    match getSiblingBundle ds.1 ds.2 asset.type with
    | none => none
    | some (stS, sib) =>
      let stA := addAssetToBundle stS sib aid
      match getAssoc stA.bundles ds.2, getAssoc stA.assets aid with
      | some bb, some a2 =>
        match a2.generated with
        | none => none
        | some g =>
          let stB :=
            if (getAssoc g bb.type).isSome then addAssetToBundle stA ds.2 aid
            else stA
          let stC := updAsset stB aid (fun a => { a with parentBundle := some ds.2 })
          (cbtDeps outDir fuel stC aid asset.dependencies ds.2).map
            (fun st' => (st', some ds.2))
      | _, _ => none
termination_by structural fuel _ _ _ _ _ => fuel

/-- The `for (let dep of asset.dependencies.values())` recursion of
`createBundleTree`. -/
def cbtDeps (outDir : String) :
    Nat → BundlerState → Nat → List (String × Dep) → Nat → Option BundlerState
  | 0, _, _, _, _ => none
  | fuel + 1, st, aid, deps, bundleId =>
    match deps with
    | [] => some st
    | (_, d) :: rest =>
      match getAssoc st.assets aid with
      | none => none
      | some a =>
        match getAssoc a.depAssets d.name with
        | none => none
        | some child =>
          match createBundleTree outDir fuel st child (some d) (some bundleId) with
          | none => none
          | some (st', _) => cbtDeps outDir fuel st' aid rest bundleId
termination_by structural fuel _ _ _ _ => fuel

end

/-- The `for (let asset of this.loadedAssets.values()) asset.invalidateBundle()`
step of `buildAsset`. -/
def invalidateBundles (st : BundlerState) : BundlerState :=
  st.loadedAssets.foldl (fun s kv => updAsset s kv.2 Asset.invalidateBundle) st

/-- The graph tail of `buildAsset`: invalidate bundle membership, build
the bundle tree from the main asset, then sweep orphans.  (`bundle.package`
only writes files and is omitted.) -/
def buildAssetGraphPhase (outDir : String) (watchOn : Bool) (fuel : Nat)
    (st : BundlerState) (mainId : Nat) : Option BundlerState :=
  match createBundleTree outDir fuel (invalidateBundles st) mainId none none with
  | none => none
  | some (st2, _) => some (unloadOrphanedAssets watchOn st2)

/-! ## Top-level error handling of `bundle()` and `onChange` -/

/-- The observable outcome of one `bundle()` or `onChange` call:
`result` is the value the promise resolves with (`none` is JS
`undefined`), `thrown` a rejection escaping to the caller. -/
structure BundleOutcome (α : Type) where
  errored : Bool
  logged : List String
  result : Option α
  stopped : Bool
  thrown : Option String
deriving DecidableEq

/-- `Bundler.bundle()`: the body runs in `try { … return await buildAsset }
catch (err) { this.errored = true; this.logger.error(err) } finally { if
(!this.watcher && killWorkers) this.stop() }`.  `build` abstracts the body
(mkdir, resolution of the main asset, `buildAsset`, packaging); the catch
block does not rethrow, so `thrown` is `none` in both branches. -/
def bundleRun {α : Type} (watch killWorkers : Bool) (build : Except String α) :
    BundleOutcome α :=
  match build with
  | Except.ok r =>
    { errored := false, logged := [], result := some r
      stopped := !watch && killWorkers, thrown := none }
  | Except.error e =>
    { errored := true, logged := [e], result := none
      stopped := !watch && killWorkers, thrown := none }

/-- `Bundler.onChange(path)` (watch mode): ignore unknown paths, else
rebuild in a `try … catch` that records and logs the error and continues. -/
def onChangeRun {α : Type} (registered : Bool) (build : Except String α) :
    BundleOutcome α :=
  if registered then
    match build with
    | Except.ok r =>
      { errored := false, logged := [], result := some r
        stopped := false, thrown := none }
    | Except.error e =>
      { errored := true, logged := [e], result := none
        stopped := false, thrown := none }
  else
    { errored := false, logged := [], result := none
      stopped := false, thrown := none }

/-! ## Concrete fixtures used by witnesses and counterexamples -/

/-- A resolver/worker environment: `/m.js` depends on `./c` → `/c.js`. -/
def envC2 : LoadEnv :=
  { watch := false
    resolveFn := fun n _ => if n = "./c" then some "/c.js" else none
    cacheRead := fun _ => none
    farmRun := fun p =>
      if p = "/m.js" then
        { generated := [("js", "m")], hash := "hm"
          dependencies :=
            [{ name := "./c", dynamic := false, includedInParent := false, loc := none }] }
      else { generated := [("js", "c")], hash := "hc", dependencies := [] }
    implicitDeps := fun _ => [] }

/-- An initial graph holding only the unprocessed main asset `/m.js`. -/
def stC2 : BundlerState :=
  { assets := [(1, mkAsset 1 "/m.js")], loadedAssets := [("/m.js", 1)], bundles := []
    nextAssetId := 2, nextBundleId := 0, watched := [], jobs := [] }

/-- A processed main asset with one recorded dependency edge. -/
def aC10 : Asset :=
  { mkAsset 1 "/m.js" with
    processed := true
    dependencies :=
      [("./c", { name := "./c", dynamic := false, includedInParent := false, loc := none })]
    depAssets := [("./c", 2)] }

def stC10 : BundlerState :=
  { assets := [(1, aC10), (2, mkAsset 2 "/c.js")]
    loadedAssets := [("/m.js", 1), ("/c.js", 2)], bundles := []
    nextAssetId := 3, nextBundleId := 0, watched := [], jobs := [] }

/-- An `includedInParent` dependency record on specifier `./c`. -/
def depIncl : Dep := { name := "./c", dynamic := false, includedInParent := true, loc := none }

/-- `stC2` after `resolveAsset` created `/c.js` (watcher disabled). -/
def st7r : BundlerState :=
  { assets := [(1, mkAsset 1 "/m.js"), (2, mkAsset 2 "/c.js")]
    loadedAssets := [("/m.js", 1), ("/c.js", 2)], bundles := []
    nextAssetId := 3, nextBundleId := 0, watched := [], jobs := [] }

/-- No alias entries: every `loadedAssets` entry is keyed by its asset's
own path (violated by `includedInParent` aliasing). -/
def NoAliases (st : BundlerState) : Prop :=
  ∀ kv ∈ st.loadedAssets, ((getAssoc st.assets kv.2).map (fun a => a.name)) = some kv.1

instance (st : BundlerState) : Decidable (NoAliases st) :=
  inferInstanceAs (Decidable (∀ kv ∈ st.loadedAssets,
    ((getAssoc st.assets kv.2).map (fun a => a.name)) = some kv.1))

/-- Build-1 environment for the alias scenario: `/m.js` requires `./p.js`,
and `/p.js` inlines `./l.less` (`includedInParent`). -/
def envA : LoadEnv :=
  { watch := true
    resolveFn := fun n _ =>
      if n = "./p.js" then some "/p.js"
      else if n = "./l.less" then some "/l.less" else none
    cacheRead := fun _ => none
    farmRun := fun p =>
      if p = "/m.js" then
        { generated := [("js", "m")], hash := "hm"
          dependencies :=
            [{ name := "./p.js", dynamic := false, includedInParent := false, loc := none }] }
      else if p = "/p.js" then
        { generated := [("js", "p")], hash := "hp"
          dependencies :=
            [{ name := "./l.less", dynamic := false, includedInParent := true, loc := none }] }
      else { generated := [], hash := "h0", dependencies := [] }
    implicitDeps := fun _ => [] }

/-- Build-2 environment: `/m.js` was edited and no longer requires `./p.js`. -/
def envB : LoadEnv :=
  { envA with
    farmRun := fun p =>
      if p = "/m.js" then { generated := [("js", "m2")], hash := "hm2", dependencies := [] }
      else { generated := [], hash := "h0", dependencies := [] } }

def stA0 : BundlerState :=
  { assets := [(1, mkAsset 1 "/m.js")], loadedAssets := [("/m.js", 1)], bundles := []
    nextAssetId := 2, nextBundleId := 0, watched := ["/m.js"], jobs := [] }

/-- A full two-build run: initial build (load + bundle tree), then a
rebuild of the edited `/m.js` (invalidate, reload, bundle-tree phase with
orphan sweep), exactly as `buildAsset` sequences them. -/
def c6chain : Option BundlerState :=
  (loadAsset envA 6 stA0 1).bind fun s1 =>
  (createBundleTree "/out" 9 s1 1 none none).bind fun p =>
  (loadAsset envB 6 (updAsset p.1 1 Asset.invalidate) 1).bind fun s3 =>
  buildAssetGraphPhase "/out" true 9 s3 1

/-- An alias-free graph with one orphan (`/m.js`) and one bundled asset. -/
def stW6 : BundlerState :=
  { assets := [(1, mkAsset 1 "/m.js"), (2, { mkAsset 2 "/k.js" with parentBundle := some 0 })]
    loadedAssets := [("/m.js", 1), ("/k.js", 2)], bundles := []
    nextAssetId := 3, nextBundleId := 1, watched := ["/m.js", "/k.js"], jobs := [] }

/-- A graph for the update-notifier witness: asset 1 (bundled, changed)
depends on asset 2 (orphaned). -/
def aC9 : Asset :=
  { mkAsset 1 "/m.js" with
    processed := true
    generated := some [("js", "m")]
    parentBundle := some 0
    dependencies :=
      [("./c", { name := "./c", dynamic := false, includedInParent := false, loc := none })]
    depAssets := [("./c", 2)] }

def stC9 : BundlerState :=
  { assets := [(1, aC9), (2, mkAsset 2 "/c.js")]
    loadedAssets := [("/m.js", 1), ("/c.js", 2)], bundles := []
    nextAssetId := 3, nextBundleId := 1, watched := [], jobs := [] }

/-- The update message `emitUpdate` produces for `stC9` with changed
asset 1. -/
def msgC9 : Update :=
  { type := "update"
    assets :=
      [{ id := 2, generated := none, deps := [] },
       { id := 1, generated := some [("js", "m")], deps := [("./c", 2)] }] }

/-- The dependency record `/m.js` → `./p.js` of the alias scenario. -/
def depPJS : Dep := { name := "./p.js", dynamic := false, includedInParent := false, loc := none }

/-- The graph after build 1's `loadAsset`: `/p.js` loaded, `/l.less`
resolved (unprocessed) and aliased under its specifier `./l.less`. -/
def stA1 : BundlerState :=
  { assets :=
      [(1, { mkAsset 1 "/m.js" with
              processed := true
              generated := some [("js", "m")]
              hash := some "hm"
              dependencies := [("./p.js", depPJS)]
              depAssets := [("./p.js", 2)] }),
       (2, { mkAsset 2 "/p.js" with
              processed := true
              generated := some [("js", "p")]
              hash := some "hp" }),
       (3, mkAsset 3 "/l.less")]
    loadedAssets := [("/m.js", 1), ("/p.js", 2), ("/l.less", 3), ("./l.less", 2)]
    bundles := []
    nextAssetId := 4
    nextBundleId := 0
    watched := ["/m.js", "/p.js", "/l.less"]
    jobs := [1, 2] }

/-- Build 1's root bundle. -/
def bundleA : Bundle :=
  { type := "js", name := "/out/m.js", entryAsset := some 1, assets := [1, 2]
    parentBundle := none, childBundles := [], siblingBundles := [] }

/-- The graph after build 1's bundle tree. -/
def stA2 : BundlerState :=
  { assets :=
      [(1, { mkAsset 1 "/m.js" with
              processed := true
              generated := some [("js", "m")]
              hash := some "hm"
              dependencies := [("./p.js", depPJS)]
              depAssets := [("./p.js", 2)]
              parentBundle := some 0
              bundles := [0] }),
       (2, { mkAsset 2 "/p.js" with
              processed := true
              generated := some [("js", "p")]
              hash := some "hp"
              parentDeps := [depPJS]
              parentBundle := some 0
              bundles := [0] }),
       (3, mkAsset 3 "/l.less")]
    loadedAssets := [("/m.js", 1), ("/p.js", 2), ("/l.less", 3), ("./l.less", 2)]
    bundles := [(0, bundleA)]
    nextAssetId := 4
    nextBundleId := 1
    watched := ["/m.js", "/p.js", "/l.less"]
    jobs := [1, 2] }

/-- The graph after build 2's `loadAsset` (the edited `/m.js` no longer
depends on `./p.js`). -/
def stB1 : BundlerState :=
  { stA2 with
    assets :=
      [(1, { mkAsset 1 "/m.js" with
              processed := true
              generated := some [("js", "m2")]
              hash := some "hm2"
              parentBundle := some 0
              bundles := [0] }),
       (2, { mkAsset 2 "/p.js" with
              processed := true
              generated := some [("js", "p")]
              hash := some "hp"
              parentDeps := [depPJS]
              parentBundle := some 0
              bundles := [0] }),
       (3, mkAsset 3 "/l.less")]
    jobs := [1, 2, 1] }

/-- Build 2's root bundle. -/
def bundleB : Bundle :=
  { type := "js", name := "/out/m.js", entryAsset := some 1, assets := [1]
    parentBundle := none, childBundles := [], siblingBundles := [] }

/-- The final graph of build 2 after the orphan sweep: the alias entry
`./l.less` still points at the orphaned asset 2. -/
def stF : BundlerState :=
  { assets :=
      [(1, { mkAsset 1 "/m.js" with
              processed := true
              generated := some [("js", "m2")]
              hash := some "hm2"
              parentBundle := some 1
              bundles := [1] }),
       (2, { mkAsset 2 "/p.js" with
              processed := true
              generated := some [("js", "p")]
              hash := some "hp" }),
       (3, mkAsset 3 "/l.less")]
    loadedAssets := [("/m.js", 1), ("./l.less", 2)]
    bundles := [(0, bundleA), (1, bundleB)]
    nextAssetId := 4
    nextBundleId := 2
    watched := ["/m.js"]
    jobs := [1, 2, 1] }

/-- Bundle arena keys stay below the bundle id counter. -/
def BundleIdsWF (st : BundlerState) : Prop :=
  ∀ kv ∈ st.bundles, kv.1 < st.nextBundleId

instance (st : BundlerState) : Decidable (BundleIdsWF st) :=
  inferInstanceAs (Decidable (∀ kv ∈ st.bundles, kv.1 < st.nextBundleId))

/-- Every `siblingBundles` entry points at an existing bundle of the
recorded type (maintained by `getSiblingBundle`, which creates siblings
of exactly the requested type). -/
def SibTypesOK (st : BundlerState) : Prop :=
  ∀ kv ∈ st.bundles, ∀ ts ∈ kv.2.siblingBundles,
    ((getAssoc st.bundles ts.2).map (fun b => b.type)) = some ts.1

instance (st : BundlerState) : Decidable (SibTypesOK st) :=
  inferInstanceAs (Decidable (∀ kv ∈ st.bundles, ∀ ts ∈ kv.2.siblingBundles,
    ((getAssoc st.bundles ts.2).map (fun b => b.type)) = some ts.1))

/-- A stylesheet asset whose `js` artifact is the *empty string*. -/
def aY : Asset :=
  { mkAsset 2 "/s.css" with generated := some [("css", "x"), ("js", "")] }

def depS : Dep := { name := "./s.css", dynamic := false, includedInParent := false, loc := none }

/-- A graph holding `aY` and a `js` bundle about to visit it. -/
def stY : BundlerState :=
  { assets := [(2, aY)]
    loadedAssets := [("/s.css", 2)]
    bundles :=
      [(0, { type := "js", name := "/out/m.js", entryAsset := some 1, assets := []
             parentBundle := none, childBundles := [], siblingBundles := [] })]
    nextAssetId := 3, nextBundleId := 1, watched := [], jobs := [] }

/-! ## Views and reachability for `moveAssetToBundle` (C1) -/

/-- The `parentBundle` field of the asset stored under `x`. -/
def pview (st : BundlerState) (x : Nat) : Option (Option Nat) :=
  (getAssoc st.assets x).map (fun a => a.parentBundle)

/-- The dependency-edge targets (the `depAssets` values) of the asset
stored under `x`. -/
def eview (st : BundlerState) (x : Nat) : Option (List Nat) :=
  (getAssoc st.assets x).map (fun a => a.depAssets.map Prod.snd)

/-- Reachability from `root` along `depAssets` edges stepping only into
assets whose `parentBundle` is `old` — the set of assets that
`moveAssetToBundle(root, common)` re-homes (the root unconditionally,
then transitively every dependency still parented to the old bundle). -/
inductive ReachOld (st : BundlerState) (old : Option Nat) (root : Nat) : Nat → Prop
  | refl : ReachOld st old root root
  | step {y c : Nat} {es : List Nat} : ReachOld st old root y →
      eview st y = some es → c ∈ es → pview st c = some old →
      ReachOld st old root c

/-- `moveAssetToBundle` never touches the dependency edges. -/
def MoveFrame (st st' : BundlerState) : Prop := ∀ x, eview st' x = eview st x

/-- Every `parentBundle` is either untouched or set to `common`. -/
def MoveMono (common : Nat) (st st' : BundlerState) : Prop :=
  ∀ x, pview st' x = pview st x ∨ pview st' x = some (some common)

/-- Assets already parented to `common` stay so. -/
def MovePersist (common : Nat) (st st' : BundlerState) : Prop :=
  ∀ x, pview st x = some (some common) → pview st' x = some (some common)

/-- Every asset newly parented to `common` has had its dependency edges
scanned: none of its dep targets still carries the old parent. -/
def MoveClosed (old : Option Nat) (common : Nat) (st st' : BundlerState) : Prop :=
  ∀ x, pview st x ≠ some (some common) → pview st' x = some (some common) →
    ∀ es, eview st x = some es → ∀ y ∈ es, pview st' y ≠ some old

/-- A shared dynamic-import asset: `/s.js` sits in bundle 1 (the first
dynamic subtree) and is about to be visited from bundle 2. -/
def aS : Asset :=
  { mkAsset 5 "/s.js" with parentBundle := some 1, bundles := [1]
                           depAssets := [("./t.js", 6)] }

/-- A dependency of `aS`, also parented to bundle 1. -/
def aT : Asset :=
  { mkAsset 6 "/t.js" with parentBundle := some 1, bundles := [1] }

/-- An unrelated asset parented to bundle 2; not reachable from `aS`. -/
def aU : Asset :=
  { mkAsset 7 "/u.js" with parentBundle := some 2, bundles := [2] }

/-- Root `js` bundle 0 with two dynamic child bundles 1 and 2; the shared
asset 5 (and its dependency 6) currently live in bundle 1. -/
def stL : BundlerState :=
  { assets := [(5, aS), (6, aT), (7, aU)]
    loadedAssets := [("/s.js", 5), ("/t.js", 6), ("/u.js", 7)]
    bundles :=
      [(0, { type := "js", name := "/out/m.js", entryAsset := some 4, assets := []
             parentBundle := none, childBundles := [1, 2], siblingBundles := [] }),
       (1, { type := "js", name := "/out/d1.js", entryAsset := some 5, assets := [5, 6]
             parentBundle := some 0, childBundles := [], siblingBundles := [] }),
       (2, { type := "js", name := "/out/d2.js", entryAsset := some 7, assets := [7]
             parentBundle := some 0, childBundles := [], siblingBundles := [] })]
    nextAssetId := 8, nextBundleId := 3, watched := [], jobs := [] }

/-- `stL` after `createBundleTree` re-visits asset 5 from bundle 2: the
lowest common ancestor of bundles 2 and 1 is the root bundle 0, so assets
5 and 6 are hoisted into bundle 0 and re-parented there; asset 7 is
untouched. -/
def stLf : BundlerState :=
  { assets :=
      [(5, { aS with parentBundle := some 0, bundles := [0] }),
       (6, { aT with parentBundle := some 0, bundles := [0] }),
       (7, aU)]
    loadedAssets := [("/s.js", 5), ("/t.js", 6), ("/u.js", 7)]
    bundles :=
      [(0, { type := "js", name := "/out/m.js", entryAsset := some 4, assets := [5, 6]
             parentBundle := none, childBundles := [1, 2], siblingBundles := [] }),
       (1, { type := "js", name := "/out/d1.js", entryAsset := some 5, assets := []
             parentBundle := some 0, childBundles := [], siblingBundles := [] }),
       (2, { type := "js", name := "/out/d2.js", entryAsset := some 7, assets := [7]
             parentBundle := some 0, childBundles := [], siblingBundles := [] })]
    nextAssetId := 8, nextBundleId := 3, watched := [], jobs := [] }

/-- The state after `createBundleTree` visits `aY` from bundle 0 of `stY`:
the asset lands in the fresh `css` sibling bundle 1 and, because its
(empty) `js` artifact is present, also in the `js` bundle 0 itself. -/
def stYv : BundlerState :=
  { assets := [(2, { aY with parentBundle := some 0, bundles := [1, 0] })]
    loadedAssets := [("/s.css", 2)]
    bundles :=
      [(0, { type := "js", name := "/out/m.js", entryAsset := some 1, assets := [2]
             parentBundle := none, childBundles := [1], siblingBundles := [("css", 1)] }),
       (1, { type := "css", name := "/out/m.js.css", entryAsset := none, assets := [2]
             parentBundle := some 0, childBundles := [], siblingBundles := [] })]
    nextAssetId := 3, nextBundleId := 2, watched := [], jobs := [] }

/-! # Theorems -/

/-! ## Map and arena lemmas -/

@[simp] theorem getAssoc_setAssoc_self {κ α : Type} [DecidableEq κ]
    (m : List (κ × α)) (k : κ) (v : α) : getAssoc (setAssoc m k v) k = some v := by
  induction m with
  | nil => simp [setAssoc, getAssoc]
  | cons kv rest ih =>
    obtain ⟨k', v'⟩ := kv
    by_cases h : k = k' <;> simp [setAssoc, getAssoc, h, ih]

theorem getAssoc_setAssoc_ne {κ α : Type} [DecidableEq κ]
    (m : List (κ × α)) (k k' : κ) (v : α) (h : k' ≠ k) :
    getAssoc (setAssoc m k v) k' = getAssoc m k' := by
  induction m with
  | nil => simp [setAssoc, getAssoc, h]
  | cons kv rest ih =>
    obtain ⟨k₀, v₀⟩ := kv
    by_cases hk : k = k₀
    · subst hk; simp [setAssoc, getAssoc, h]
    · by_cases hk' : k' = k₀ <;> simp [setAssoc, getAssoc, hk, hk', ih]

@[simp] theorem updAsset_loadedAssets (st : BundlerState) (aid : Nat) (f : Asset → Asset) :
    (updAsset st aid f).loadedAssets = st.loadedAssets := by
  unfold updAsset; cases getAssoc st.assets aid <;> rfl

@[simp] theorem updAsset_jobs (st : BundlerState) (aid : Nat) (f : Asset → Asset) :
    (updAsset st aid f).jobs = st.jobs := by
  unfold updAsset; cases getAssoc st.assets aid <;> rfl

@[simp] theorem updAsset_nextAssetId (st : BundlerState) (aid : Nat) (f : Asset → Asset) :
    (updAsset st aid f).nextAssetId = st.nextAssetId := by
  unfold updAsset; cases getAssoc st.assets aid <;> rfl

@[simp] theorem updAsset_watched (st : BundlerState) (aid : Nat) (f : Asset → Asset) :
    (updAsset st aid f).watched = st.watched := by
  unfold updAsset; cases getAssoc st.assets aid <;> rfl

@[simp] theorem updAsset_bundles (st : BundlerState) (aid : Nat) (f : Asset → Asset) :
    (updAsset st aid f).bundles = st.bundles := by
  unfold updAsset; cases getAssoc st.assets aid <;> rfl

theorem getAssoc_updAsset (st : BundlerState) (aid : Nat) (f : Asset → Asset) (x : Nat) :
    getAssoc (updAsset st aid f).assets x =
      if x = aid then (getAssoc st.assets aid).map f else getAssoc st.assets x := by
  unfold updAsset
  cases h : getAssoc st.assets aid with
  | none => by_cases hx : x = aid <;> simp [hx, h]
  | some a =>
    by_cases hx : x = aid
    · subst hx; simp [h]
    · simp [hx, h, getAssoc_setAssoc_ne _ _ _ _ hx]


/-! ## C8: the frame conditions of `invalidate` and `invalidateBundle` -/

/-- C8: `invalidate()` resets `processed` and clears exactly `contents`,
`ast`, `generated`, `hash`, `dependencies`, `depAssets`, leaving
`parentBundle`, `bundles` and `parentDeps` unchanged; `invalidateBundle()`
clears exactly `parentBundle`, `bundles` and `parentDeps`, leaving the
content and graph fields unchanged. -/
theorem C8_invalidate_invalidateBundle_frame (a : Asset) :
    (a.invalidate.processed = false ∧
     a.invalidate.contents = none ∧
     a.invalidate.ast = none ∧
     a.invalidate.generated = none ∧
     a.invalidate.hash = none ∧
     a.invalidate.dependencies = [] ∧
     a.invalidate.depAssets = [] ∧
     a.invalidate.parentBundle = a.parentBundle ∧
     a.invalidate.bundles = a.bundles ∧
     a.invalidate.parentDeps = a.parentDeps ∧
     a.invalidate.id = a.id ∧
     a.invalidate.name = a.name ∧
     a.invalidate.type = a.type) ∧
    (a.invalidateBundle.parentBundle = none ∧
     a.invalidateBundle.bundles = [] ∧
     a.invalidateBundle.parentDeps = [] ∧
     a.invalidateBundle.contents = a.contents ∧
     a.invalidateBundle.ast = a.ast ∧
     a.invalidateBundle.generated = a.generated ∧
     a.invalidateBundle.hash = a.hash ∧
     a.invalidateBundle.processed = a.processed ∧
     a.invalidateBundle.dependencies = a.dependencies ∧
     a.invalidateBundle.depAssets = a.depAssets ∧
     a.invalidateBundle.id = a.id ∧
     a.invalidateBundle.name = a.name ∧
     a.invalidateBundle.type = a.type) := by
  refine ⟨⟨rfl, ?_⟩, ?_⟩ <;> simp [Asset.invalidate, Asset.invalidateBundle]

/-! ## C4: the `addURLDependency` contract -/

/-- C4: for every `url` and importer `fromPath`: an empty or
scheme-prefixed URL is returned unchanged with no dependency registered;
any other URL is resolved against the importer's directory, registered as
a dynamic dependency named by the (`./`-prefixed) relative path from the
asset's own directory to the resolved absolute path, and the call returns
`md5(absolutePath) ++ extname(url)`. -/
theorem C4_addURLDependency_contract (md5 : String → String) (a : Asset)
    (url fromPath : String) :
    (url = "" ∨ protocolTest url = true →
      a.addURLDependency md5 url fromPath = (a, url)) ∧
    (url ≠ "" → protocolTest url = false →
      a.addURLDependency md5 url fromPath =
        (let resolved := pathResolve (pathDirname fromPath) url
         let depName := "./" ++ pathRelative (pathDirname a.name) resolved
         ({ a with
            dependencies :=
              setAssoc a.dependencies depName
                { name := depName, dynamic := true
                  includedInParent := false, loc := none } },
          md5 resolved ++ pathExtname url))) := by
  constructor
  · intro h
    unfold Asset.addURLDependency
    rcases h with h | h
    · simp [h]
    · simp [h]
  · intro h1 h2
    unfold Asset.addURLDependency
    simp [h1, h2, Asset.addDependency]

/-- Witness for C4: concrete evaluations of both cases: the scheme case on
`"http://x.com/a.png"`, and the relative case on `"img/x.png"` imported
from `/proj/pages/idx.html`. -/
theorem C4_addURLDependency_contract_witness :
    (Asset.addURLDependency (fun s => "H" ++ s) (mkAsset 1 "/proj/pages/idx.html")
      "http://x.com/a.png" "/proj/pages/idx.html" =
        (mkAsset 1 "/proj/pages/idx.html", "http://x.com/a.png")) ∧
    (Asset.addURLDependency (fun s => "H" ++ s) (mkAsset 1 "/proj/pages/idx.html")
      "img/x.png" "/proj/pages/idx.html" =
        ({ mkAsset 1 "/proj/pages/idx.html" with
           dependencies :=
             [("./img/x.png",
               { name := "./img/x.png", dynamic := true
                 includedInParent := false, loc := none })] },
         "H/proj/pages/img/x.png.png")) := by
  constructor
  · exact (C4_addURLDependency_contract (fun s => "H" ++ s)
      (mkAsset 1 "/proj/pages/idx.html") "http://x.com/a.png" "/proj/pages/idx.html").1
      (Or.inr (by decide))
  · have h := (C4_addURLDependency_contract (fun s => "H" ++ s)
      (mkAsset 1 "/proj/pages/idx.html") "img/x.png" "/proj/pages/idx.html").2
      (by decide) (by decide)
    rw [h]
    decide


theorem getAssoc_mem {κ α : Type} [DecidableEq κ] {m : List (κ × α)} {k : κ} {v : α}
    (h : getAssoc m k = some v) : (k, v) ∈ m := by
  induction m with
  | nil => simp [getAssoc] at h
  | cons kv rest ih =>
    obtain ⟨k', v'⟩ := kv
    by_cases hk : k = k'
    · subst hk; simp [getAssoc] at h; simp [h]
    · simp [getAssoc, hk] at h
      exact List.mem_cons_of_mem _ (ih h)

theorem mem_setAssoc {κ α : Type} [DecidableEq κ] {m : List (κ × α)} {k : κ} {v : α}
    {kv' : κ × α} (h : kv' ∈ setAssoc m k v) : kv' = (k, v) ∨ kv' ∈ m := by
  induction m with
  | nil => simp [setAssoc] at h; simp [h]
  | cons kv rest ih =>
    obtain ⟨k', v'⟩ := kv
    by_cases hk : k = k'
    · subst hk
      simp [setAssoc] at h
      rcases h with h | h
      · exact Or.inl (by simp [h])
      · exact Or.inr (List.mem_cons_of_mem _ h)
    · simp [setAssoc, hk] at h
      rcases h with h | h
      · exact Or.inr (by simp [h])
      · rcases ih h with h' | h'
        · exact Or.inl h'
        · exact Or.inr (List.mem_cons_of_mem _ h')

theorem getAssoc_setAssoc {κ α : Type} [DecidableEq κ]
    (m : List (κ × α)) (k x : κ) (v : α) :
    getAssoc (setAssoc m k v) x = if x = k then some v else getAssoc m x := by
  by_cases hx : x = k
  · subst hx; simp
  · simp [hx, getAssoc_setAssoc_ne _ _ _ _ hx]

theorem isSome_getAssoc_setAssoc {κ α : Type} [DecidableEq κ]
    {m : List (κ × α)} {x : κ} (k : κ) (v : α)
    (h : (getAssoc m x).isSome = true) :
    (getAssoc (setAssoc m k v) x).isSome = true := by
  rw [getAssoc_setAssoc]
  by_cases hx : x = k <;> simp [hx, h]

/-! ## Frame lemma for `resolveAsset` -/

theorem resolveAsset_frame {env : LoadEnv} {st st1 : BundlerState}
    {name parent : String} {cid : Nat}
    (h : resolveAsset env st name parent = some (st1, cid)) :
    st1.jobs = st.jobs ∧ st1.bundles = st.bundles ∧
    st.nextAssetId ≤ st1.nextAssetId ∧
    (∀ kv, kv ∈ st1.assets → kv ∈ st.assets ∨
      (kv.2.dependencies = [] ∧ kv.2.depAssets = [] ∧ kv.2.processed = false)) ∧
    (AssetIdsWF st → AssetIdsWF st1 ∧
      ∀ x a, getAssoc st.assets x = some a → getAssoc st1.assets x = some a) := by
  unfold resolveAsset at h
  cases hr : env.resolveFn name parent with
  | none => rw [hr] at h; exact absurd h (by simp)
  | some path =>
    rw [hr] at h
    dsimp only at h
    cases hl : getAssoc st.loadedAssets path with
    | some aid =>
      rw [hl] at h
      simp at h
      obtain ⟨h1, _⟩ := h
      subst h1
      refine ⟨rfl, rfl, le_refl _, fun kv hkv => Or.inl hkv, fun hwf => ⟨hwf, ?_⟩⟩
      intro x a hx; exact hx
    | none =>
      rw [hl] at h
      simp at h
      obtain ⟨h1, _⟩ := h
      subst h1
      refine ⟨rfl, rfl, Nat.le_succ _, ?_, ?_⟩
      · intro kv hkv
        rcases mem_setAssoc hkv with h' | h'
        · subst h'; exact Or.inr ⟨rfl, rfl, rfl⟩
        · exact Or.inl h'
      · intro hwf
        constructor
        · intro kv hkv
          rcases mem_setAssoc hkv with h' | h'
          · subst h'; exact Nat.lt_succ_self _
          · exact Nat.lt_succ_of_lt (hwf kv h')
        · intro x a hx
          have hmem := getAssoc_mem hx
          have hlt := hwf _ hmem
          simp only at hlt
          have hne : x ≠ st.nextAssetId := Nat.ne_of_lt hlt
          simpa [getAssoc_setAssoc, hne] using hx

/-! ## `LoadStep` machinery: what one load-pipeline step may do -/

theorem loadStep_refl (st : BundlerState) : LoadStep st st :=
  ⟨List.prefix_refl _, fun h => ⟨h, fun _ hx => hx⟩, fun h => h⟩

theorem loadStep_trans {a b c : BundlerState} (h1 : LoadStep a b) (h2 : LoadStep b c) :
    LoadStep a c := by
  obtain ⟨j1, i1, d1⟩ := h1
  obtain ⟨j2, i2, d2⟩ := h2
  refine ⟨j1.trans j2, ?_, fun hd => d2 (d1 hd)⟩
  intro hinv
  obtain ⟨hinv1, hm1⟩ := i1 hinv
  obtain ⟨hinv2, hm2⟩ := i2 hinv1
  exact ⟨hinv2, fun x hx => hm2 x (hm1 x hx)⟩

theorem mem_updAsset {st : BundlerState} {aid : Nat} {f : Asset → Asset} {kv : Nat × Asset}
    (h : kv ∈ (updAsset st aid f).assets) :
    kv ∈ st.assets ∨ ∃ a, getAssoc st.assets aid = some a ∧ kv = (aid, f a) := by
  unfold updAsset at h
  cases hl : getAssoc st.assets aid with
  | none => rw [hl] at h; exact Or.inl h
  | some a =>
    rw [hl] at h
    dsimp only at h
    rcases mem_setAssoc h with h' | h'
    · exact Or.inr ⟨a, rfl, h'⟩
    · exact Or.inl h'

theorem processedB_mono_updAsset {st : BundlerState} {aid : Nat} {f : Asset → Asset}
    (hproc : ∀ a, a.processed = true → (f a).processed = true) :
    ∀ x, processedB st x = true → processedB (updAsset st aid f) x = true := by
  intro x hx
  unfold processedB at hx ⊢
  rw [getAssoc_updAsset]
  by_cases hxa : x = aid
  · subst hxa
    cases h : getAssoc st.assets x with
    | none => rw [h] at hx; exact absurd hx (by simp)
    | some a =>
      rw [h] at hx
      simpa using hproc a hx
  · simpa [hxa] using hx

theorem assetIdsWF_updAsset {st : BundlerState} {aid : Nat} {f : Asset → Asset}
    (hwf : AssetIdsWF st) : AssetIdsWF (updAsset st aid f) := by
  intro kv hkv
  rcases mem_updAsset hkv with h | ⟨a, ha, h⟩
  · simpa using hwf kv h
  · subst h
    simpa using hwf _ (getAssoc_mem ha)

theorem jobsInv_updAsset {st : BundlerState} {aid : Nat} {f : Asset → Asset}
    (hproc : ∀ a, a.processed = true → (f a).processed = true)
    (hinv : JobsInv st) : JobsInv (updAsset st aid f) := by
  obtain ⟨hwf, hnd, hjobs⟩ := hinv
  refine ⟨assetIdsWF_updAsset hwf, by simpa using hnd, ?_⟩
  intro x hx
  exact processedB_mono_updAsset hproc x (hjobs x (by simpa using hx))

theorem depMapsInv_updAsset {st : BundlerState} {aid : Nat} {f : Asset → Asset}
    (hf : ∀ a, (∀ kd ∈ a.dependencies,
        kd.2.name = kd.1 ∧ (getAssoc a.depAssets kd.1).isSome = true) →
      ∀ kd ∈ (f a).dependencies,
        kd.2.name = kd.1 ∧ (getAssoc (f a).depAssets kd.1).isSome = true)
    (hdm : DepMapsInv st) : DepMapsInv (updAsset st aid f) := by
  intro kv hkv kd hkd
  rcases mem_updAsset hkv with h | ⟨a, ha, h⟩
  · exact hdm kv h kd hkd
  · subst h
    exact hf a (fun kd' hkd' => hdm (aid, a) (getAssoc_mem ha) kd' hkd') kd hkd

theorem loadStep_updAsset (st : BundlerState) (aid : Nat) (f : Asset → Asset)
    (hproc : ∀ a, a.processed = true → (f a).processed = true)
    (hdep : ∀ a, (f a).dependencies = a.dependencies ∧ (f a).depAssets = a.depAssets) :
    LoadStep st (updAsset st aid f) := by
  refine ⟨by simp, ?_, ?_⟩
  · intro hinv
    exact ⟨jobsInv_updAsset hproc hinv, processedB_mono_updAsset hproc⟩
  · refine depMapsInv_updAsset ?_
    intro a ha kd hkd
    rw [(hdep a).1] at hkd
    rw [(hdep a).2]
    exact ha kd hkd

/-- The prologue of an unprocessed `loadAsset` call: mark processed and
append the job. -/
theorem loadStep_prologue (st : BundlerState) (aid : Nat) (asset : Asset)
    (hl : getAssoc st.assets aid = some asset) (hp : asset.processed = false) :
    LoadStep st
      { updAsset st aid (fun a => { a with processed := true }) with
        jobs := (updAsset st aid (fun a => { a with processed := true })).jobs ++ [aid] } := by
  have hupd : LoadStep st (updAsset st aid (fun a => { a with processed := true })) :=
    loadStep_updAsset st aid _ (fun a _ => rfl) (fun a => ⟨rfl, rfl⟩)
  obtain ⟨_, hupdInv, hupdDep⟩ := hupd
  refine ⟨by simp [List.prefix_append], ?_, ?_⟩
  · intro hinv
    have hnin : aid ∉ st.jobs := by
      intro hmem
      have := hinv.2.2 aid hmem
      unfold processedB at this
      rw [hl] at this
      dsimp only at this
      rw [hp] at this
      exact absurd this (by simp)
    obtain ⟨hinv1, hm1⟩ := hupdInv hinv
    obtain ⟨hwf1, hnd1, hjobs1⟩ := hinv1
    refine ⟨⟨hwf1, ?_, ?_⟩, ?_⟩
    · simp only [updAsset_jobs]
      exact List.Nodup.append hinv.2.1 (List.nodup_singleton aid) (by simpa using hnin)
    · intro x hx
      simp only [updAsset_jobs] at hx
      rcases List.mem_append.mp hx with hx | hx
      · exact hjobs1 x (by simpa using hx)
      · have hx' : x = aid := by simpa using hx
        subst hx'
        show processedB _ x = true
        unfold processedB
        simp only
        rw [getAssoc_updAsset]
        simp [hl]
    · intro x hx
      exact hm1 x hx
  · intro hdm
    exact hupdDep hdm

theorem loadStep_resolveAsset {env : LoadEnv} {st st1 : BundlerState}
    {name parent : String} {cid : Nat}
    (h : resolveAsset env st name parent = some (st1, cid)) : LoadStep st st1 := by
  obtain ⟨hj, _, _, hback, hfwd⟩ := resolveAsset_frame h
  refine ⟨by rw [hj], ?_, ?_⟩
  · intro hinv
    obtain ⟨hwf, hnd, hjobs⟩ := hinv
    obtain ⟨hwf1, hpres⟩ := hfwd hwf
    have hmono : ∀ x, processedB st x = true → processedB st1 x = true := by
      intro x hx
      unfold processedB at hx ⊢
      cases hxl : getAssoc st.assets x with
      | none => rw [hxl] at hx; exact absurd hx (by simp)
      | some a =>
        rw [hxl] at hx
        rw [hpres x a hxl]
        exact hx
    refine ⟨⟨hwf1, by rwa [hj], ?_⟩, hmono⟩
    intro x hx
    rw [hj] at hx
    exact hmono x (hjobs x hx)
  · intro hdm kv hkv kd hkd
    rcases hback kv hkv with h' | h'
    · exact hdm kv h' kd hkd
    · rw [h'.1] at hkd
      exact absurd hkd (by simp)

/-- The edge-recording step of `processDep`. -/
theorem loadStep_record (st1 : BundlerState) (aid childId : Nat) (dep : Dep) :
    LoadStep st1 (updAsset st1 aid (fun a =>
      { a with
        dependencies := setAssoc a.dependencies dep.name dep
        depAssets := setAssoc a.depAssets dep.name childId })) := by
  refine ⟨by simp, ?_, ?_⟩
  · intro hinv
    exact ⟨jobsInv_updAsset (fun a h => h) hinv,
      processedB_mono_updAsset (fun a h => h)⟩
  · refine depMapsInv_updAsset ?_
    intro a ha kd hkd
    rcases mem_setAssoc hkd with h' | h'
    · subst h'
      exact ⟨rfl, by simp⟩
    · obtain ⟨hn, hs⟩ := ha kd h'
      exact ⟨hn, isSome_getAssoc_setAssoc _ _ hs⟩

/-- A `loadedAssets`-only change is a load step. -/
theorem loadStep_of_graph_eq {st st' : BundlerState}
    (h1 : st'.assets = st.assets) (h2 : st'.jobs = st.jobs)
    (h3 : st'.nextAssetId = st.nextAssetId) : LoadStep st st' := by
  refine ⟨by rw [h2], ?_, ?_⟩
  · intro hinv
    obtain ⟨hwf, hnd, hjobs⟩ := hinv
    have hmono : ∀ x, processedB st x = true → processedB st' x = true := by
      intro x hx
      unfold processedB at hx ⊢
      rw [h1]
      exact hx
    refine ⟨⟨?_, by rwa [h2], ?_⟩, hmono⟩
    · intro kv hkv
      rw [h3]
      exact hwf kv (h1 ▸ hkv)
    · intro x hx
      rw [h2] at hx
      exact hmono x (hjobs x hx)
  · intro hdm kv hkv kd hkd
    exact hdm kv (h1 ▸ hkv) kd hkd

/-- Every run of the load pipeline is a `LoadStep`: the job log only
grows, `JobsInv` and `DepMapsInv` are preserved, and processed marks are
stable. -/
theorem load_pipeline_loadStep (env : LoadEnv) :
    ∀ fuel : Nat,
      (∀ st aid st', loadAsset env fuel st aid = some st' → LoadStep st st') ∧
      (∀ st aid pn deps st', loadDeps env fuel st aid pn deps = some st' → LoadStep st st') ∧
      (∀ st aid pn dep st', processDep env fuel st aid pn dep = some st' → LoadStep st st') := by
  intro fuel
  induction fuel with
  | zero =>
    refine ⟨fun st aid st' h => ?_, fun st aid pn deps st' h => ?_,
      fun st aid pn dep st' h => ?_⟩ <;>
      exact absurd h (by simp [loadAsset, loadDeps, processDep])
  | succ f ih =>
    obtain ⟨ihA, ihD, ihP⟩ := ih
    refine ⟨fun st aid st' h => ?_, fun st aid pn deps st' h => ?_,
      fun st aid pn dep st' h => ?_⟩
    · -- loadAsset
      rw [loadAsset] at h
      cases hl : getAssoc st.assets aid with
      | none => rw [hl] at h; exact absurd h (by simp)
      | some asset =>
        rw [hl] at h
        dsimp only at h
        cases hp : asset.processed with
        | true =>
          rw [hp] at h
          simp only [if_pos rfl] at h
          cases h
          exact loadStep_refl _
        | false =>
          rw [hp] at h
          simp only [Bool.false_eq_true, if_false] at h
          refine loadStep_trans ?_ (ihD _ _ _ _ _ h)
          refine loadStep_trans (loadStep_prologue st aid asset hl hp) ?_
          exact loadStep_updAsset _ aid _ (fun a ha => ha) (fun a => ⟨rfl, rfl⟩)
    · -- loadDeps
      rw [loadDeps.eq_def] at h
      dsimp only at h
      cases deps with
      | nil =>
        simp only at h
        cases h
        exact loadStep_refl _
      | cons dep rest =>
        simp only at h
        cases hpd : processDep env f st aid pn dep with
        | none => rw [hpd] at h; exact absurd h (by simp)
        | some stm =>
          rw [hpd] at h
          exact loadStep_trans (ihP _ _ _ _ _ hpd) (ihD _ _ _ _ _ h)
    · -- processDep
      rw [processDep] at h
      cases hres : resolveAsset env st dep.name pn with
      | none => rw [hres] at h; exact absurd h (by simp)
      | some p =>
        obtain ⟨st1, childId⟩ := p
        rw [hres] at h
        dsimp only at h
        cases hinc : dep.includedInParent with
        | true =>
          rw [hinc] at h
          simp only [if_pos rfl] at h
          cases h
          exact loadStep_trans (loadStep_resolveAsset hres)
            (loadStep_of_graph_eq rfl rfl rfl)
        | false =>
          rw [hinc] at h
          simp only [Bool.false_eq_true, if_false] at h
          exact loadStep_trans (loadStep_resolveAsset hres)
            (loadStep_trans (loadStep_record st1 aid childId dep) (ihA _ _ _ h))

theorem loadMany_loadStep (env : LoadEnv) (g : Nat) :
    ∀ ids st st', loadMany env g st ids = some st' → LoadStep st st' := by
  intro ids
  induction ids with
  | nil =>
    intro st st' h
    simp [loadMany] at h
    subst h
    exact loadStep_refl _
  | cons aid rest ih =>
    intro st st' h
    rw [loadMany.eq_def] at h
    dsimp only at h
    cases hA : loadAsset env g st aid with
    | none => rw [hA] at h; exact absurd h (by simp)
    | some stm =>
      rw [hA] at h
      exact loadStep_trans ((load_pipeline_loadStep env g).1 _ _ _ hA) (ih stm st' h)

/-- One unfolding of an unprocessed `loadAsset` call. -/
theorem loadAsset_unprocessed_eq (env : LoadEnv) (fuel : Nat) (st : BundlerState)
    (aid : Nat) (asset : Asset) (hl : getAssoc st.assets aid = some asset)
    (hp : asset.processed = false) :
    loadAsset env (fuel + 1) st aid =
      loadDeps env fuel
        (updAsset
          { updAsset st aid (fun a => { a with processed := true }) with
            jobs := (updAsset st aid (fun a => { a with processed := true })).jobs ++ [aid] }
          aid (fun a =>
            { a with
              generated := some (match env.cacheRead asset.name with
                | some p => p
                | none => env.farmRun asset.name).generated
              hash := some (match env.cacheRead asset.name with
                | some p => p
                | none => env.farmRun asset.name).hash }))
        aid asset.name
        ((match env.cacheRead asset.name with
          | some p => p
          | none => env.farmRun asset.name).dependencies ++ env.implicitDeps asset.name) := by
  rw [loadAsset]
  rw [hl]
  dsimp only
  rw [hp]
  simp

/-- Facts about the state of an unprocessed `loadAsset` call right after
the job dispatch: it is one `LoadStep`, the job log grew by exactly this
asset, and the asset is now marked processed. -/
theorem loadAsset_mid (st : BundlerState) (aid : Nat) (asset : Asset) (pr : ProcessedResult)
    (hl : getAssoc st.assets aid = some asset) (hp : asset.processed = false) :
    LoadStep st
      (updAsset
        { updAsset st aid (fun a => { a with processed := true }) with
          jobs := (updAsset st aid (fun a => { a with processed := true })).jobs ++ [aid] }
        aid (fun a => { a with generated := some pr.generated, hash := some pr.hash })) ∧
    (updAsset
        { updAsset st aid (fun a => { a with processed := true }) with
          jobs := (updAsset st aid (fun a => { a with processed := true })).jobs ++ [aid] }
        aid (fun a => { a with generated := some pr.generated, hash := some pr.hash })).jobs
      = st.jobs ++ [aid] ∧
    processedB
      (updAsset
        { updAsset st aid (fun a => { a with processed := true }) with
          jobs := (updAsset st aid (fun a => { a with processed := true })).jobs ++ [aid] }
        aid (fun a => { a with generated := some pr.generated, hash := some pr.hash }))
      aid = true := by
  refine ⟨?_, by simp, ?_⟩
  · exact loadStep_trans (loadStep_prologue st aid asset hl hp)
      (loadStep_updAsset _ aid _ (fun a ha => ha) (fun a => ⟨rfl, rfl⟩))
  · unfold processedB
    rw [getAssoc_updAsset]
    simp [getAssoc_updAsset, hl]

/-! ## C2: idempotence and the single job per asset -/

/-- C2: a `loadAsset` call on an already-processed asset returns at once
with no effect on the state; on an unprocessed asset it marks the asset
processed (this happens, in the source, before the first `await`), issues
exactly one cache-read-or-worker job for it, and any number of further
`loadAsset` calls during the build leave that count at exactly one. -/
theorem C2_loadAsset_idempotent_single_job (env : LoadEnv) (fuel : Nat)
    (st : BundlerState) (aid : Nat) (asset : Asset)
    (hl : getAssoc st.assets aid = some asset) (hinv : JobsInv st) :
    (asset.processed = true → loadAsset env (fuel + 1) st aid = some st) ∧
    (∀ st', asset.processed = false → loadAsset env (fuel + 1) st aid = some st' →
      processedB st' aid = true ∧ st'.jobs.count aid = 1 ∧ JobsInv st' ∧
      (∀ g ids st'', loadMany env g st' ids = some st'' → st''.jobs.count aid = 1)) := by
  constructor
  · intro hp
    rw [loadAsset]
    rw [hl]
    dsimp only
    rw [hp]
    simp
  · intro st' hp h
    rw [loadAsset_unprocessed_eq env fuel st aid asset hl hp] at h
    obtain ⟨hstep, hjobs3, hproc3⟩ := loadAsset_mid st aid asset
      (match env.cacheRead asset.name with
        | some p => p
        | none => env.farmRun asset.name) hl hp
    have hinv3 := (hstep.2.1 hinv).1
    have hstepD := (load_pipeline_loadStep env fuel).2.1 _ _ _ _ _ h
    obtain ⟨hpre, hID, _⟩ := hstepD
    obtain ⟨hinv', hmono⟩ := hID hinv3
    have hproc' : processedB st' aid = true := hmono aid hproc3
    have hmem' : aid ∈ st'.jobs := by
      refine hpre.subset ?_
      rw [hjobs3]
      exact List.mem_append_right _ (List.mem_singleton_self _)
    refine ⟨hproc', List.count_eq_one_of_mem hinv'.2.1 hmem', hinv', ?_⟩
    intro g ids st'' hm
    have hstepM := loadMany_loadStep env g ids st' st'' hm
    obtain ⟨hpreM, hIDM, _⟩ := hstepM
    have hinv'' := (hIDM hinv').1
    exact List.count_eq_one_of_mem hinv''.2.1 (hpreM.subset hmem')

/-- Witness for C2: running the concrete environment `envC2` on the
unprocessed main asset issues exactly one job for it. -/
theorem C2_loadAsset_idempotent_single_job_witness :
    (loadAsset envC2 5 stC2 1).map (fun s => s.jobs.count 1) = some 1 := by
  cases hrun : loadAsset envC2 5 stC2 1 with
  | none =>
    have hs : (loadAsset envC2 5 stC2 1).isSome = true := by decide
    rw [hrun] at hs
    exact absurd hs (by simp)
  | some st' =>
    have h := (C2_loadAsset_idempotent_single_job envC2 4 stC2 1 (mkAsset 1 "/m.js")
      (by decide) (by decide)).2 st' (by decide) hrun
    simp [h.2.1]

/-! ## C10: `dependencies` keys always resolved in `depAssets` -/

theorem depsObjGo_isSome (dA : List (String × Nat)) :
    ∀ deps : List (String × Dep),
      (∀ kd ∈ deps, (getAssoc dA kd.2.name).isSome = true) →
        (depsObjGo dA deps).isSome = true := by
  intro deps
  induction deps with
  | nil => intro _; simp [depsObjGo]
  | cons kd rest ih =>
    intro h
    obtain ⟨k, d⟩ := kd
    have h1 := h (k, d) (List.mem_cons_self _ _)
    cases hx : getAssoc dA d.name with
    | none =>
      rw [hx] at h1
      exact absurd h1 (by simp)
    | some mid =>
      have h2 := ih (fun kd' h' => h kd' (List.mem_cons_of_mem _ h'))
      rw [depsObjGo]
      rw [hx]
      cases hrest : depsObjGo dA rest with
      | none => rw [hrest] at h2; exact absurd h2 (by simp)
      | some l => simp

/-- C10: the key set of every asset's `dependencies` map stays inside the
key set of its `depAssets` map — `loadAsset` inserts into both together
and `invalidate` clears both together — so `depAssets.get(dep.name)` is
defined for every recorded dependency, and the `emitUpdate` entry
construction (which reads `mod.id`) cannot fail on a loaded asset. -/
theorem C10_dependencies_keys_in_depAssets (env : LoadEnv) (fuel : Nat) :
    (∀ st st' aid, DepMapsInv st → loadAsset env fuel st aid = some st' → DepMapsInv st') ∧
    (∀ st aid, DepMapsInv st → DepMapsInv (updAsset st aid Asset.invalidate)) ∧
    (∀ st aid a, DepMapsInv st → getAssoc st.assets aid = some a →
      ∀ kd ∈ a.dependencies, (getAssoc a.depAssets kd.2.name).isSome = true) ∧
    (∀ st aid a, DepMapsInv st → getAssoc st.assets aid = some a →
      (assetEntry st aid).isSome = true) := by
  refine ⟨?_, ?_, ?_, ?_⟩
  · intro st st' aid hdm h
    exact ((load_pipeline_loadStep env fuel).1 st aid st' h).2.2 hdm
  · intro st aid hdm
    refine depMapsInv_updAsset ?_ hdm
    intro a _ kd hkd
    exact absurd hkd (by simp [Asset.invalidate])
  · intro st aid a hdm hl kd hkd
    obtain ⟨hn, hs⟩ := hdm (aid, a) (getAssoc_mem hl) kd hkd
    rwa [hn]
  · intro st aid a hdm hl
    have hdeps : ∀ kd ∈ a.dependencies, (getAssoc a.depAssets kd.2.name).isSome = true := by
      intro kd hkd
      obtain ⟨hn, hs⟩ := hdm (aid, a) (getAssoc_mem hl) kd hkd
      rwa [hn]
    unfold assetEntry
    rw [hl]
    dsimp only
    have := depsObjGo_isSome a.depAssets a.dependencies hdeps
    cases hgo : depsObjGo a.depAssets a.dependencies with
    | none => rw [hgo] at this; exact absurd this (by simp)
    | some deps => simp

/-- Witness for C10: on the concrete graph `stC10` the invariant holds
and the update-entry construction for the main asset succeeds. -/
theorem C10_dependencies_keys_in_depAssets_witness :
    (assetEntry stC10 1).isSome = true :=
  (C10_dependencies_keys_in_depAssets envC2 1).2.2.2 stC10 1 aC10
    (by decide) (by decide)

/-! ## C3: top-level error handling of `bundle()` -/

/-- Counterexample for C3: in one-shot mode (watch disabled) with a
failing build, `bundle()` still resolves normally — nothing is thrown to
the caller (`thrown = none`, the promise resolves with `undefined`),
contradicting the claim that the error propagates out of `bundle()`. -/
theorem C3_bundle_one_shot_counterexample :
    (bundleRun false true (Except.error "boom") : BundleOutcome Nat).thrown = none ∧
    (bundleRun false true (Except.error "boom") : BundleOutcome Nat).result = none ∧
    (bundleRun false true (Except.error "boom") : BundleOutcome Nat).errored = true ∧
    (bundleRun false true (Except.error "boom") : BundleOutcome Nat).logged = ["boom"] :=
  ⟨rfl, rfl, rfl, rfl⟩

/-- C3 (amended): `bundle()` catches every build error, records
`errored = true` and logs it, and this happens in watch mode and one-shot
mode alike — the error never propagates to the caller (the catch block
does not rethrow); `onChange` likewise catches rebuild errors so the
watch-mode process continues. -/
theorem C3_bundle_catches_all_errors (α : Type) (watch killWorkers : Bool)
    (e : String) (r : α) (build : Except String α) :
    (bundleRun watch killWorkers build).thrown = none ∧
    (bundleRun watch killWorkers (Except.error e) : BundleOutcome α).errored = true ∧
    (bundleRun watch killWorkers (Except.error e) : BundleOutcome α).logged = [e] ∧
    (bundleRun watch killWorkers (Except.error e) : BundleOutcome α).result = none ∧
    (bundleRun watch killWorkers (Except.ok r)).result = some r ∧
    (onChangeRun true build).thrown = none ∧
    (onChangeRun true (Except.error e) : BundleOutcome α).errored = true ∧
    (onChangeRun true (Except.error e) : BundleOutcome α).logged = [e] := by
  refine ⟨?_, rfl, rfl, rfl, rfl, ?_, rfl, rfl⟩ <;>
    cases build <;> simp [bundleRun, onChangeRun]

/-! ## C7: the two dependency-edge branches of `loadAsset` -/

/-- C7: after resolving a dependency, an `includedInParent` edge aliases
`loadedAssets[dep.name]` to the *parent* asset, leaves the parent's
`dependencies`/`depAssets` untouched and does not recurse into the child
(the call returns at once); any other edge records the dependency record
in the parent's `dependencies`, the resolved child in its `depAssets`, and
continues as `loadAsset(child)`. -/
theorem C7_processDep_branches (env : LoadEnv) (fuel : Nat) (st st1 : BundlerState)
    (aid childId : Nat) (parentName : String) (dep : Dep)
    (hres : resolveAsset env st dep.name parentName = some (st1, childId)) :
    (dep.includedInParent = true →
      processDep env (fuel + 1) st aid parentName dep =
        some { st1 with loadedAssets := setAssoc st1.loadedAssets dep.name aid } ∧
      getAssoc (setAssoc st1.loadedAssets dep.name aid) dep.name = some aid ∧
      (AssetIdsWF st → ∀ a, getAssoc st.assets aid = some a →
        getAssoc st1.assets aid = some a)) ∧
    (dep.includedInParent = false →
      processDep env (fuel + 1) st aid parentName dep =
        loadAsset env fuel
          (updAsset st1 aid (fun a =>
            { a with
              dependencies := setAssoc a.dependencies dep.name dep
              depAssets := setAssoc a.depAssets dep.name childId })) childId ∧
      ∀ a, getAssoc st1.assets aid = some a →
        getAssoc (updAsset st1 aid (fun a' =>
          { a' with
            dependencies := setAssoc a'.dependencies dep.name dep
            depAssets := setAssoc a'.depAssets dep.name childId })).assets aid =
          some { a with
            dependencies := setAssoc a.dependencies dep.name dep
            depAssets := setAssoc a.depAssets dep.name childId } ∧
        getAssoc (setAssoc a.dependencies dep.name dep) dep.name = some dep ∧
        getAssoc (setAssoc a.depAssets dep.name childId) dep.name = some childId) := by
  constructor
  · intro hinc
    refine ⟨?_, by simp, ?_⟩
    · rw [processDep, hres]; simp [hinc]
    · intro hwf a ha
      exact ((resolveAsset_frame hres).2.2.2.2 hwf).2 aid a ha
  · intro hinc
    constructor
    · rw [processDep, hres]; simp [hinc]
    · intro a ha
      refine ⟨?_, by simp, by simp⟩
      rw [getAssoc_updAsset]
      simp [ha]

/-- Witness for C7: on the concrete environment, the `includedInParent`
edge `./c` makes `loadedAssets["./c"]` point at the parent asset `1`. -/
theorem C7_processDep_branches_witness :
    processDep envC2 1 stC2 1 "/m.js" depIncl =
      some { st7r with loadedAssets := setAssoc st7r.loadedAssets "./c" 1 } :=
  ((C7_processDep_branches envC2 0 stC2 st7r 1 2 "/m.js" depIncl (by decide)).1 rfl).1

/-! ## C6: the orphan sweep -/

theorem unload_fold_assets (w : Bool) :
    ∀ (l : List Nat) (st : BundlerState), (l.foldl (unloadAsset w) st).assets = st.assets := by
  intro l
  induction l with
  | nil => intro st; rfl
  | cons b rest ih =>
    intro st
    rw [List.foldl_cons, ih]
    unfold unloadAsset
    cases getAssoc st.assets b <;> rfl

theorem unload_fold_loaded_sub (w : Bool) :
    ∀ (l : List Nat) (st : BundlerState) (kv : String × Nat),
      kv ∈ (l.foldl (unloadAsset w) st).loadedAssets → kv ∈ st.loadedAssets := by
  intro l
  induction l with
  | nil => intro st kv h; exact h
  | cons b rest ih =>
    intro st kv h
    rw [List.foldl_cons] at h
    have h1 := ih _ kv h
    unfold unloadAsset at h1
    cases hx : getAssoc st.assets b with
    | none => rw [hx] at h1; exact h1
    | some a =>
      rw [hx] at h1
      dsimp only at h1
      unfold delAssoc at h1
      exact List.mem_of_mem_filter h1

theorem unload_fold_watched_sub (w : Bool) :
    ∀ (l : List Nat) (st : BundlerState) (x : String),
      x ∈ (l.foldl (unloadAsset w) st).watched → x ∈ st.watched := by
  intro l
  induction l with
  | nil => intro st x h; exact h
  | cons b rest ih =>
    intro st x h
    rw [List.foldl_cons] at h
    have h1 := ih _ x h
    unfold unloadAsset at h1
    cases hx : getAssoc st.assets b with
    | none => rw [hx] at h1; exact h1
    | some a =>
      rw [hx] at h1
      dsimp only at h1
      cases w with
      | true =>
        simp only [if_pos rfl] at h1
        unfold removeSet at h1
        exact List.mem_of_mem_filter h1
      | false =>
        simp only [Bool.false_eq_true, if_false] at h1
        exact h1

theorem unload_fold_removes (w : Bool) :
    ∀ (l : List Nat) (st0 : BundlerState) (aid : Nat) (a : Asset),
      aid ∈ l → getAssoc st0.assets aid = some a →
      (∀ kv ∈ (l.foldl (unloadAsset w) st0).loadedAssets, kv.1 ≠ a.name) ∧
      (w = true → a.name ∉ (l.foldl (unloadAsset w) st0).watched) := by
  intro l
  induction l with
  | nil => intro st0 aid a hmem; exact absurd hmem (by simp)
  | cons b rest ih =>
    intro st0 aid a hmem hlk
    rcases List.mem_cons.mp hmem with hb | hb
    · subst hb
      rw [List.foldl_cons]
      constructor
      · intro kv hkv
        have h1 := unload_fold_loaded_sub w rest _ kv hkv
        unfold unloadAsset at h1
        rw [hlk] at h1
        have := List.of_mem_filter h1
        simpa [delAssoc] using this
      · intro hw
        subst hw
        intro hmemw
        have h1 := unload_fold_watched_sub true rest _ _ hmemw
        unfold unloadAsset at h1
        rw [hlk] at h1
        dsimp only at h1
        have h2 := List.of_mem_filter h1
        simp [removeSet] at h2
    · rw [List.foldl_cons]
      have hlk' : getAssoc (unloadAsset w st0 b).assets aid = some a := by
        unfold unloadAsset
        cases getAssoc st0.assets b <;> exact hlk
      exact ih (unloadAsset w st0 b) aid a hb hlk'

/-- C6 (amended): for an alias-free graph, after `unloadOrphanedAssets`
every asset still reachable through `loadedAssets` has a non-null
`parentBundle`, and every orphan has been removed under its own name and
unregistered from the watcher.  (Alias entries left by `includedInParent`
dependencies are keyed by specifier, not by the asset's name, and can
survive pointing at an orphaned asset — see the counterexample.) -/
theorem C6_unloadOrphanedAssets_spec (watchOn : Bool) (st : BundlerState)
    (hal : NoAliases st) :
    (∀ kv ∈ (unloadOrphanedAssets watchOn st).loadedAssets,
      ∀ a, getAssoc (unloadOrphanedAssets watchOn st).assets kv.2 = some a →
        a.parentBundle ≠ none) ∧
    (∀ aid ∈ findOrphanAssets st, ∀ a, getAssoc st.assets aid = some a →
      (∀ kv ∈ (unloadOrphanedAssets watchOn st).loadedAssets, kv.1 ≠ a.name) ∧
      (watchOn = true → a.name ∉ (unloadOrphanedAssets watchOn st).watched)) := by
  constructor
  · intro kv hkv a ha hnone
    have hkv0 : kv ∈ st.loadedAssets :=
      unload_fold_loaded_sub watchOn _ _ kv hkv
    have hassets : (unloadOrphanedAssets watchOn st).assets = st.assets :=
      unload_fold_assets watchOn _ st
    rw [hassets] at ha
    have horph : kv.2 ∈ findOrphanAssets st := by
      unfold findOrphanAssets
      refine List.mem_filter.mpr ⟨List.mem_map.mpr ⟨kv, hkv0, rfl⟩, ?_⟩
      rw [ha]
      dsimp only
      rw [hnone]
      rfl
    have hname := hal kv hkv0
    rw [ha] at hname
    have hname' : a.name = kv.1 := by simpa using hname
    have hrem := (unload_fold_removes watchOn (findOrphanAssets st) st kv.2 a horph ha).1
    exact hrem kv hkv (by rw [hname'])
  · intro aid hmem a hlk
    exact unload_fold_removes watchOn (findOrphanAssets st) st aid a hmem hlk

set_option maxHeartbeats 1000000 in
theorem c6step1 : loadAsset envA 6 stA0 1 = some stA1 := by decide

set_option maxHeartbeats 1000000 in
theorem c6step2 : createBundleTree "/out" 9 stA1 1 none none = some (stA2, some 0) := by
  decide

set_option maxHeartbeats 1000000 in
theorem c6step3 : loadAsset envB 6 (updAsset stA2 1 Asset.invalidate) 1 = some stB1 := by
  decide

set_option maxHeartbeats 1000000 in
theorem c6step4 : buildAssetGraphPhase "/out" true 9 stB1 1 = some stF := by decide

/-- Counterexample for C6: a successful two-build run (dropping a parent
with an `includedInParent` dependency) ends with `loadedAssets` still
mapping the alias key `./l.less` to asset `2`, whose `parentBundle` is
null — so not every asset remaining in `loadedAssets` after a successful
build has a non-null `parentBundle`. -/
theorem C6_orphan_alias_counterexample :
    (c6chain.map fun st =>
      (getAssoc st.loadedAssets "./l.less",
       (getAssoc st.assets 2).map (fun a => a.parentBundle))) =
      some (some 2, some none) := by
  have hchain : c6chain = some stF := by
    unfold c6chain
    rw [c6step1]
    dsimp only [Option.bind]
    rw [c6step2]
    dsimp only [Option.bind]
    rw [c6step3]
    dsimp only [Option.bind]
    exact c6step4
  rw [hchain]
  decide

/-- Witness for C6: on the alias-free graph `stW6` the orphan `/m.js` is
gone from `loadedAssets` and from the watcher. -/
theorem C6_unloadOrphanedAssets_spec_witness :
    getAssoc (unloadOrphanedAssets true stW6).loadedAssets "/m.js" = none ∧
    "/m.js" ∉ (unloadOrphanedAssets true stW6).watched := by
  have h := (C6_unloadOrphanedAssets_spec true stW6 (by decide)).2 1 (by decide)
    (mkAsset 1 "/m.js") (by decide)
  constructor
  · cases hlk : getAssoc (unloadOrphanedAssets true stW6).loadedAssets "/m.js" with
    | none => rfl
    | some v =>
      have hname : ("/m.js", v).1 = (mkAsset 1 "/m.js").name := rfl
      exact absurd hname (h.1 ("/m.js", v) (getAssoc_mem hlk))
  · exact h.2 rfl

/-! ## C9: the update-notifier broadcast -/

theorem depsObjGo_forall2 (dA : List (String × Nat)) :
    ∀ (deps : List (String × Dep)) (l : List (String × Nat)),
      depsObjGo dA deps = some l →
      List.Forall₂ (fun (kd : String × Dep) (p : String × Nat) =>
        p.1 = kd.2.name ∧ getAssoc dA kd.2.name = some p.2) deps l := by
  intro deps
  induction deps with
  | nil =>
    intro l h
    simp [depsObjGo] at h
    subst h
    exact List.Forall₂.nil
  | cons kd rest ih =>
    intro l h
    obtain ⟨k, d⟩ := kd
    rw [depsObjGo] at h
    cases hx : getAssoc dA d.name with
    | none => rw [hx] at h; exact absurd h (by simp)
    | some mid =>
      rw [hx] at h
      cases hrest : depsObjGo dA rest with
      | none => rw [hrest] at h; exact absurd h (by simp)
      | some l' =>
        rw [hrest] at h
        simp only [Option.map_some'] at h
        cases h
        exact List.Forall₂.cons ⟨rfl, hx⟩ (ih l' hrest)

theorem entriesOf_spec (st : BundlerState)
    (hids : ∀ kv ∈ st.assets, kv.2.id = kv.1) :
    ∀ (aids : List Nat) (es : List UpdateEntry), entriesOf st aids = some es →
      es.map UpdateEntry.id = aids ∧
      ∀ e ∈ es, ∃ a, getAssoc st.assets e.id = some a ∧
        e.generated = a.generated ∧
        List.Forall₂ (fun (kd : String × Dep) (p : String × Nat) =>
          p.1 = kd.2.name ∧ getAssoc a.depAssets kd.2.name = some p.2)
          a.dependencies e.deps := by
  intro aids
  induction aids with
  | nil =>
    intro es h
    simp [entriesOf] at h
    subst h
    simp
  | cons aid rest ih =>
    intro es h
    rw [entriesOf] at h
    cases hae : assetEntry st aid with
    | none => rw [hae] at h; exact absurd h (by simp)
    | some e =>
      rw [hae] at h
      cases hrest : entriesOf st rest with
      | none => rw [hrest] at h; exact absurd h (by simp)
      | some es' =>
        rw [hrest] at h
        simp only [Option.map_some'] at h
        cases h
        obtain ⟨ih1, ih2⟩ := ih es' hrest
        unfold assetEntry at hae
        cases hlk : getAssoc st.assets aid with
        | none => rw [hlk] at hae; exact absurd hae (by simp)
        | some a =>
          rw [hlk] at hae
          dsimp only at hae
          cases hgo : depsObjGo a.depAssets a.dependencies with
          | none => rw [hgo] at hae; exact absurd hae (by simp)
          | some deps =>
            rw [hgo] at hae
            simp only [Option.some_inj] at hae
            have hid : a.id = aid := hids (aid, a) (getAssoc_mem hlk)
            constructor
            · simp [← hae, hid, ih1]
            · intro e' he'
              rcases List.mem_cons.mp he' with he' | he'
              · subst he'
                refine ⟨a, ?_, ?_, ?_⟩
                · rw [← hae]
                  dsimp only
                  rw [hid]
                  exact hlk
                · rw [← hae]
                · rw [← hae]
                  exact depsObjGo_forall2 a.depAssets a.dependencies deps hgo
              · exact ih2 e' he'

/-- C9: after a rebuild (non-initial build with the notifier attached),
the single message handed to every connected client has type `"update"`,
its asset array covers exactly the currently orphaned assets (null
`parentBundle`) followed by the changed asset, and each entry carries the
asset's id, its `generated` mapping, and a `deps` object mapping each
recorded dependency specifier to the resolved child asset's id. -/
theorem C9_emitUpdate_message (st : BundlerState) (changed : Nat) {γ : Type}
    (clients : List γ) (msg : Update)
    (hids : ∀ kv ∈ st.assets, kv.2.id = kv.1)
    (hmsg : emitUpdate st (hmrAssetList st changed) = some msg) :
    msg.type = "update" ∧
    msg.assets.map UpdateEntry.id = findOrphanAssets st ++ [changed] ∧
    (∀ e ∈ msg.assets, ∃ a, getAssoc st.assets e.id = some a ∧
      e.generated = a.generated ∧
      List.Forall₂ (fun (kd : String × Dep) (p : String × Nat) =>
        p.1 = kd.2.name ∧ getAssoc a.depAssets kd.2.name = some p.2)
        a.dependencies e.deps) ∧
    broadcastUpdate clients msg = clients.map (fun c => (c, msg)) := by
  unfold emitUpdate at hmsg
  cases hes : entriesOf st (hmrAssetList st changed) with
  | none => rw [hes] at hmsg; exact absurd hmsg (by simp)
  | some es =>
    rw [hes] at hmsg
    simp only [Option.map_some', Option.some_inj] at hmsg
    obtain ⟨h1, h2⟩ := entriesOf_spec st hids (hmrAssetList st changed) es hes
    subst hmsg
    exact ⟨rfl, h1, h2, rfl⟩

/-- Witness for C9: on the concrete graph `stC9` the message ids are
exactly the orphan (asset 2) followed by the changed asset 1. -/
theorem C9_emitUpdate_message_witness :
    msgC9.assets.map UpdateEntry.id = findOrphanAssets stC9 ++ [1] :=
  (C9_emitUpdate_message stC9 1 ([] : List Nat) msgC9 (by decide) (by decide)).2.1

/-! ## Bundle-arena lemmas -/

@[simp] theorem updBundle_assets (st : BundlerState) (bid : Nat) (f : Bundle → Bundle) :
    (updBundle st bid f).assets = st.assets := by
  unfold updBundle; cases getAssoc st.bundles bid <;> rfl

@[simp] theorem updBundle_nextBundleId (st : BundlerState) (bid : Nat) (f : Bundle → Bundle) :
    (updBundle st bid f).nextBundleId = st.nextBundleId := by
  unfold updBundle; cases getAssoc st.bundles bid <;> rfl

@[simp] theorem updBundle_loadedAssets (st : BundlerState) (bid : Nat) (f : Bundle → Bundle) :
    (updBundle st bid f).loadedAssets = st.loadedAssets := by
  unfold updBundle; cases getAssoc st.bundles bid <;> rfl

theorem getAssoc_updBundle (st : BundlerState) (bid : Nat) (f : Bundle → Bundle) (x : Nat) :
    getAssoc (updBundle st bid f).bundles x =
      if x = bid then (getAssoc st.bundles bid).map f else getAssoc st.bundles x := by
  unfold updBundle
  cases h : getAssoc st.bundles bid with
  | none => by_cases hx : x = bid <;> simp [hx, h]
  | some b =>
    by_cases hx : x = bid
    · subst hx; simp [h]
    · simp [hx, h, getAssoc_setAssoc_ne _ _ _ _ hx]

theorem mem_updBundle {st : BundlerState} {bid : Nat} {f : Bundle → Bundle} {kv : Nat × Bundle}
    (h : kv ∈ (updBundle st bid f).bundles) :
    kv ∈ st.bundles ∨ ∃ b, getAssoc st.bundles bid = some b ∧ kv = (bid, f b) := by
  unfold updBundle at h
  cases hl : getAssoc st.bundles bid with
  | none => rw [hl] at h; exact Or.inl h
  | some b =>
    rw [hl] at h
    dsimp only at h
    rcases mem_setAssoc h with h' | h'
    · exact Or.inr ⟨b, rfl, h'⟩
    · exact Or.inl h'

theorem bundleIdsWF_updBundle {st : BundlerState} {bid : Nat} {f : Bundle → Bundle}
    (hwf : BundleIdsWF st) : BundleIdsWF (updBundle st bid f) := by
  intro kv hkv
  rcases mem_updBundle hkv with h | ⟨b, hb, h⟩
  · simpa using hwf kv h
  · subst h
    simpa using hwf _ (getAssoc_mem hb)

/-- `updBundle` with a type- and sibling-preserving function keeps
`SibTypesOK`. -/
theorem sibTypesOK_updBundle {st : BundlerState} {bid : Nat} {f : Bundle → Bundle}
    (htype : ∀ b, (f b).type = b.type)
    (hsibs : ∀ b, (f b).siblingBundles = b.siblingBundles)
    (h : SibTypesOK st) : SibTypesOK (updBundle st bid f) := by
  have htv : ∀ x, ((getAssoc (updBundle st bid f).bundles x).map (fun b => b.type)) =
      ((getAssoc st.bundles x).map (fun b => b.type)) := by
    intro x
    rw [getAssoc_updBundle]
    by_cases hx : x = bid
    · subst hx
      cases hb : getAssoc st.bundles x with
      | none => simp
      | some b => simp [htype b]
    · simp [hx]
  intro kv hkv ts hts
  rcases mem_updBundle hkv with h' | ⟨b, hb, h'⟩
  · rw [htv]
    exact h kv h' ts hts
  · subst h'
    rw [htv]
    dsimp only at hts
    rw [hsibs b] at hts
    exact h (bid, b) (getAssoc_mem hb) ts hts

theorem bundle_view_updBundle {st : BundlerState} {bid : Nat} {f : Bundle → Bundle}
    (htype : ∀ b, (f b).type = b.type)
    (hassets : ∀ b, (f b).assets = b.assets) :
    ∀ x b, getAssoc st.bundles x = some b →
      ∃ b', getAssoc (updBundle st bid f).bundles x = some b' ∧
        b'.type = b.type ∧ b'.assets = b.assets := by
  intro x b hx
  rw [getAssoc_updBundle]
  by_cases hxb : x = bid
  · subst hxb
    rw [hx]
    refine ⟨f b, ?_, htype b, hassets b⟩
    simp
  · simp only [hxb, if_false]
    exact ⟨b, hx, rfl, rfl⟩

theorem bundle_view3_updBundle {st : BundlerState} {bid : Nat} {f : Bundle → Bundle}
    (htype : ∀ b, (f b).type = b.type)
    (hassets : ∀ b, (f b).assets = b.assets)
    (hsibs : ∀ b, (f b).siblingBundles = b.siblingBundles) :
    ∀ x b, getAssoc st.bundles x = some b →
      ∃ b', getAssoc (updBundle st bid f).bundles x = some b' ∧
        b'.type = b.type ∧ b'.assets = b.assets ∧
        b'.siblingBundles = b.siblingBundles := by
  intro x b hx
  rw [getAssoc_updBundle]
  by_cases hxb : x = bid
  · subst hxb
    rw [hx]
    refine ⟨f b, ?_, htype b, hassets b, hsibs b⟩
    simp
  · simp only [hxb, if_false]
    exact ⟨b, hx, rfl, rfl, rfl⟩

/-- Appending a fresh bundle (as the root step and `createChildBundle`
do) preserves the invariants and every existing bundle's record. -/
theorem bundles_fresh_pres (st : BundlerState) (nb : Bundle) (hwf : BundleIdsWF st) :
    BundleIdsWF { st with bundles := setAssoc st.bundles st.nextBundleId nb
                          nextBundleId := st.nextBundleId + 1 } ∧
    (SibTypesOK st → nb.siblingBundles = [] →
      SibTypesOK { st with bundles := setAssoc st.bundles st.nextBundleId nb
                           nextBundleId := st.nextBundleId + 1 }) ∧
    getAssoc (setAssoc st.bundles st.nextBundleId nb) st.nextBundleId = some nb ∧
    (∀ x b, getAssoc st.bundles x = some b →
      getAssoc (setAssoc st.bundles st.nextBundleId nb) x = some b) := by
  have hpres : ∀ x b, getAssoc st.bundles x = some b →
      getAssoc (setAssoc st.bundles st.nextBundleId nb) x = some b := by
    intro x b hx
    have hlt := hwf _ (getAssoc_mem hx)
    rw [getAssoc_setAssoc]
    simp only at hlt
    simp [Nat.ne_of_lt hlt, hx]
  refine ⟨?_, ?_, by simp, hpres⟩
  · intro kv hkv
    rcases mem_setAssoc hkv with h' | h'
    · subst h'; exact Nat.lt_succ_self _
    · exact Nat.lt_succ_of_lt (hwf kv h')
  · intro hsib hnb kv hkv ts hts
    rcases mem_setAssoc hkv with h' | h'
    · subst h'
      dsimp only at hts
      rw [hnb] at hts
      exact absurd hts (by simp)
    · have hv := hsib kv h' ts hts
      cases hx : getAssoc st.bundles ts.2 with
      | none => rw [hx] at hv; exact absurd hv (by simp)
      | some b =>
        rw [hx] at hv
        dsimp only
        rw [hpres ts.2 b hx]
        exact hv

/-! ## `addAssetToBundle` lemmas -/

theorem addAssetToBundle_bundle_self {st : BundlerState} {bid : Nat} (aid : Nat) {b : Bundle}
    (hb : getAssoc st.bundles bid = some b) :
    getAssoc (addAssetToBundle st bid aid).bundles bid =
      some { b with assets := addSet b.assets aid } := by
  unfold addAssetToBundle
  dsimp only
  rw [updAsset_bundles]
  rw [getAssoc_updBundle, if_pos rfl, hb]
  rfl

theorem addAssetToBundle_bundle_other {st : BundlerState} {bid x : Nat} (aid : Nat)
    (hx : x ≠ bid) :
    getAssoc (addAssetToBundle st bid aid).bundles x = getAssoc st.bundles x := by
  unfold addAssetToBundle
  dsimp only
  rw [updAsset_bundles]
  rw [getAssoc_updBundle]
  simp [hx]

theorem addAssetToBundle_assets (st : BundlerState) (bid aid x : Nat) :
    getAssoc (addAssetToBundle st bid aid).assets x =
      if x = aid then
        (getAssoc st.assets x).map (fun a => { a with bundles := addSet a.bundles bid })
      else getAssoc st.assets x := by
  unfold addAssetToBundle
  dsimp only
  rw [getAssoc_updAsset]
  by_cases hx : x = aid <;> simp [hx]

theorem mem_addSet_self {α : Type} [DecidableEq α] (l : List α) (x : α) :
    x ∈ addSet l x := by
  unfold addSet
  by_cases h : x ∈ l <;> simp [h]

/-! ## Specs for the bundle-creation steps -/

theorem typeView_updBundle {st : BundlerState} {bid : Nat} {f : Bundle → Bundle}
    (htype : ∀ b, (f b).type = b.type) :
    ∀ x, ((getAssoc (updBundle st bid f).bundles x).map (fun b => b.type)) =
      ((getAssoc st.bundles x).map (fun b => b.type)) := by
  intro x
  rw [getAssoc_updBundle]
  by_cases hx : x = bid
  · subst hx
    cases hb : getAssoc st.bundles x with
    | none => simp
    | some b => simp [htype b]
  · simp [hx]

/-- What `createChildBundle` does: fresh id, invariants kept, existing
bundles untouched. -/
theorem createChildBundle_spec (st : BundlerState) (bid : Nat) (ty nm : String)
    (hwf : BundleIdsWF st) (hsib : SibTypesOK st) :
    (createChildBundle st bid ty nm).1.assets = st.assets ∧
    (createChildBundle st bid ty nm).2 = st.nextBundleId ∧
    BundleIdsWF (createChildBundle st bid ty nm).1 ∧
    SibTypesOK (createChildBundle st bid ty nm).1 ∧
    (∃ nb', getAssoc (createChildBundle st bid ty nm).1.bundles st.nextBundleId = some nb' ∧
      nb'.type = ty ∧ nb'.assets = [] ∧ nb'.siblingBundles = []) ∧
    (∀ x b, getAssoc st.bundles x = some b →
      ∃ b', getAssoc (createChildBundle st bid ty nm).1.bundles x = some b' ∧
        b'.type = b.type ∧ b'.assets = b.assets ∧
        b'.siblingBundles = b.siblingBundles) := by
  unfold createChildBundle
  dsimp only
  obtain ⟨hwf1, hsib1, hfresh, hpres⟩ := bundles_fresh_pres st
    { type := ty, name := nm, entryAsset := none, assets := []
      parentBundle := some bid, childBundles := [], siblingBundles := [] } hwf
  refine ⟨by simp, rfl, bundleIdsWF_updBundle hwf1, ?_, ?_, ?_⟩
  · exact sibTypesOK_updBundle (fun b => rfl) (fun b => rfl) (hsib1 hsib rfl)
  · rw [getAssoc_updBundle]
    dsimp only
    by_cases hbid : st.nextBundleId = bid
    · subst hbid
      rw [if_pos rfl]
      rw [hfresh]
      exact ⟨_, rfl, rfl, rfl, rfl⟩
    · rw [if_neg hbid]
      exact ⟨_, hfresh, rfl, rfl, rfl⟩
  · intro x b hx
    have hx1 := hpres x b hx
    exact @bundle_view3_updBundle
      { st with
        bundles := setAssoc st.bundles st.nextBundleId
          { type := ty, name := nm, entryAsset := none, assets := []
            parentBundle := some bid, childBundles := [], siblingBundles := [] }
        nextBundleId := st.nextBundleId + 1 }
      bid
      (fun b => { b with childBundles := addSet b.childBundles st.nextBundleId })
      (fun b => rfl) (fun b => rfl) (fun b => rfl) x b hx1

theorem cbtRootStep_spec (outDir : String) (st0 : BundlerState) (aid : Nat)
    (bundleId : Option Nat) (asset : Asset)
    (hwf : BundleIdsWF st0) (hsib : SibTypesOK st0) :
    (cbtRootStep outDir st0 aid bundleId asset).1.assets = st0.assets ∧
    BundleIdsWF (cbtRootStep outDir st0 aid bundleId asset).1 ∧
    SibTypesOK (cbtRootStep outDir st0 aid bundleId asset).1 := by
  unfold cbtRootStep
  cases bundleId with
  | some b => exact ⟨rfl, hwf, hsib⟩
  | none =>
    dsimp only
    obtain ⟨hwf1, hsib1, _, _⟩ := bundles_fresh_pres st0
      { type := asset.type
        name := pathJoin outDir (generateBundleName asset true)
        entryAsset := some aid, assets := []
        parentBundle := none, childBundles := [], siblingBundles := [] } hwf
    exact ⟨rfl, hwf1, hsib1 hsib rfl⟩

theorem cbtDynStep_spec (outDir : String) (rs : BundlerState × Nat) (aid : Nat)
    (dep : Option Dep) (asset : Asset)
    (hwf : BundleIdsWF rs.1) (hsib : SibTypesOK rs.1) :
    (cbtDynStep outDir rs aid dep asset).1.assets = rs.1.assets ∧
    BundleIdsWF (cbtDynStep outDir rs aid dep asset).1 ∧
    SibTypesOK (cbtDynStep outDir rs aid dep asset).1 := by
  unfold cbtDynStep
  cases dep with
  | none => exact ⟨rfl, hwf, hsib⟩
  | some d =>
    dsimp only
    by_cases hdyn : d.dynamic = true
    · rw [hdyn]
      rw [if_pos rfl]
      dsimp only
      obtain ⟨hcA, _, hcwf, hcsib, _, _⟩ := createChildBundle_spec rs.1 rs.2 asset.type
        (pathJoin outDir (generateBundleName asset false)) hwf hsib
      refine ⟨by simpa using hcA, bundleIdsWF_updBundle hcwf, ?_⟩
      exact sibTypesOK_updBundle (fun b => rfl) (fun b => rfl) hcsib
    · rw [Bool.not_eq_true] at hdyn
      rw [hdyn]
      rw [if_neg (by simp)]
      exact ⟨rfl, hwf, hsib⟩

/-- What `getSiblingBundle` guarantees on success: the returned bundle
has the requested type, the asset arena is untouched, every existing
bundle keeps its type and asset set, and the invariants are preserved. -/
theorem getSiblingBundle_spec {st : BundlerState} {bid : Nat} {ty : String}
    {st' : BundlerState} {sib : Nat}
    (h : getSiblingBundle st bid ty = some (st', sib))
    (hwf : BundleIdsWF st) (hsib : SibTypesOK st) :
    st'.assets = st.assets ∧
    (∃ sb, getAssoc st'.bundles sib = some sb ∧ sb.type = ty) ∧
    (∀ x b, getAssoc st.bundles x = some b →
      ∃ b', getAssoc st'.bundles x = some b' ∧ b'.type = b.type ∧ b'.assets = b.assets) ∧
    BundleIdsWF st' ∧ SibTypesOK st' := by
  unfold getSiblingBundle at h
  cases hb : getAssoc st.bundles bid with
  | none => rw [hb] at h; exact absurd h (by simp)
  | some b =>
    rw [hb] at h
    dsimp only at h
    by_cases hty : b.type = ty
    · rw [if_pos hty] at h
      simp only [Option.some_inj, Prod.mk.injEq] at h
      obtain ⟨h1, h2⟩ := h
      subst h1
      subst h2
      exact ⟨rfl, ⟨b, hb, hty⟩, fun x bx hx => ⟨bx, hx, rfl, rfl⟩, hwf, hsib⟩
    · rw [if_neg hty] at h
      cases hsid : getAssoc b.siblingBundles ty with
      | some sid =>
        rw [hsid] at h
        simp only [Option.some_inj, Prod.mk.injEq] at h
        obtain ⟨h1, h2⟩ := h
        subst h1
        subst h2
        have hv := hsib (bid, b) (getAssoc_mem hb) (ty, sid) (getAssoc_mem hsid)
        cases hx : getAssoc st.bundles sid with
        | none => rw [hx] at hv; exact absurd hv (by simp)
        | some sb =>
          rw [hx] at hv
          simp only [Option.map_some', Option.some_inj] at hv
          exact ⟨rfl, ⟨sb, rfl, hv⟩, fun x bx hxx => ⟨bx, hxx, rfl, rfl⟩, hwf, hsib⟩
      | none =>
        rw [hsid] at h
        dsimp only at h
        simp only [Option.some_inj, Prod.mk.injEq] at h
        obtain ⟨h1, h2⟩ := h
        obtain ⟨hcA, hcid, hcwf, hcsib, ⟨nb', hnb', hnbty, hnbass, hnbsib⟩, hcview⟩ :=
          createChildBundle_spec st bid ty (b.name ++ "." ++ ty) hwf hsib
        have hbidlt : bid < st.nextBundleId := by
          simpa using hwf _ (getAssoc_mem hb)
        have hbidne : st.nextBundleId ≠ bid := Nat.ne_of_gt hbidlt
        have hfresh' : getAssoc st'.bundles
            (createChildBundle st bid ty (b.name ++ "." ++ ty)).2 = some nb' := by
          rw [← h1]
          rw [getAssoc_updBundle]
          rw [hcid]
          rw [if_neg hbidne]
          exact hnb'
        refine ⟨?_, ?_, ?_, ?_, ?_⟩
        · rw [← h1]
          simpa using hcA
        · rw [← h2]
          exact ⟨nb', hfresh', hnbty⟩
        · intro x bx hx
          obtain ⟨b', hb', hbt, hba, _⟩ := hcview x bx hx
          obtain ⟨b'', hb'', hbt', hba'⟩ :=
            @bundle_view_updBundle
              (createChildBundle st bid ty (b.name ++ "." ++ ty)).1
              bid
              (fun bz0 =>
                { bz0 with
                    siblingBundles :=
                      setAssoc bz0.siblingBundles ty
                        (createChildBundle st bid ty (b.name ++ "." ++ ty)).2 })
              (fun bz => rfl) (fun bz => rfl) x b' hb'
          rw [← h1]
          exact ⟨b'', hb'', hbt'.trans hbt, hba'.trans hba⟩
        · rw [← h1]
          exact bundleIdsWF_updBundle hcwf
        · rw [← h1]
          intro kv hkv ts hts
          have htv := @typeView_updBundle
            (createChildBundle st bid ty (b.name ++ "." ++ ty)).1
            bid
            (fun b' =>
              { b' with
                  siblingBundles :=
                    setAssoc b'.siblingBundles ty
                      (createChildBundle st bid ty (b.name ++ "." ++ ty)).2 })
            (fun bz => rfl)
          rcases mem_updBundle hkv with h' | ⟨bu, hbu, h'⟩
          · rw [htv]
            exact hcsib kv h' ts hts
          · subst h'
            dsimp only at hts
            rcases mem_setAssoc hts with h'' | h''
            · subst h''
              dsimp only
              rw [htv]
              rw [hcid]
              rw [hnb']
              simp [hnbty]
            · rw [htv]
              exact hcsib (bid, bu) (getAssoc_mem hbu) ts h''
/-! ## C5: sibling-bundle adds and the generated-keys invariant -/

/-- C5: a successful `createBundleTree` visit of an unparented asset
always adds it to the current bundle's sibling bundle of the asset's own
type (`sb.type = asset.type` and the asset joins `sb.assets`), and adds
it to the current bundle itself exactly when `asset.generated[bundle.type]`
is present (non-null) — note: mere presence, an empty artifact string
counts; when that key is present it is in particular among the keys of
the asset's `generated` mapping.  The visit then continues into the
dependencies from exactly these states. -/
theorem C5_visit_adds_memberships
    (outDir : String) (fuel : Nat) (st0 : BundlerState) (aid : Nat)
    (dep : Option Dep) (bundleId : Option Nat) (asset : Asset)
    (st' : BundlerState) (r : Option Nat)
    (hv : cbtVisit outDir (fuel + 1) st0 aid dep bundleId asset = some (st', r))
    (hwf : BundleIdsWF st0) (hsib : SibTypesOK st0) :
    ∃ ds stS sib g bb,
      ds = cbtDynStep outDir (cbtRootStep outDir st0 aid bundleId asset) aid dep asset ∧
      getSiblingBundle ds.1 ds.2 asset.type = some (stS, sib) ∧
      (∃ sb, getAssoc (addAssetToBundle stS sib aid).bundles sib = some sb ∧
        sb.type = asset.type ∧ aid ∈ sb.assets) ∧
      getAssoc (addAssetToBundle stS sib aid).bundles ds.2 = some bb ∧
      (∃ a2, getAssoc (addAssetToBundle stS sib aid).assets aid = some a2 ∧
        a2.generated = some g) ∧
      (∃ cb, getAssoc (if (getAssoc g bb.type).isSome = true
            then addAssetToBundle (addAssetToBundle stS sib aid) ds.2 aid
            else addAssetToBundle stS sib aid).bundles ds.2 = some cb ∧
        (aid ∈ cb.assets ↔ ((getAssoc g bb.type).isSome = true ∨ aid ∈ bb.assets))) ∧
      ((getAssoc g bb.type).isSome = true → bb.type ∈ g.map Prod.fst) ∧
      cbtDeps outDir fuel
        (updAsset (if (getAssoc g bb.type).isSome = true
            then addAssetToBundle (addAssetToBundle stS sib aid) ds.2 aid
            else addAssetToBundle stS sib aid) aid
          (fun a => { a with parentBundle := some ds.2 })) aid
        asset.dependencies ds.2 = some st' ∧
      r = some ds.2 := by
  have hroot := cbtRootStep_spec outDir st0 aid bundleId asset hwf hsib
  have hdyn := cbtDynStep_spec outDir (cbtRootStep outDir st0 aid bundleId asset)
    aid dep asset hroot.2.1 hroot.2.2
  rw [cbtVisit.eq_def] at hv
  dsimp only at hv
  set ds := cbtDynStep outDir (cbtRootStep outDir st0 aid bundleId asset) aid dep asset with hds
  cases hgs : getSiblingBundle ds.1 ds.2 asset.type with
  | none =>
    rw [hgs] at hv
    dsimp only at hv
    exact absurd hv (by simp)
  | some p =>
    obtain ⟨stS, sib⟩ := p
    rw [hgs] at hv
    dsimp only at hv
    obtain ⟨hSassets, ⟨sb0, hsb0, hsbty⟩, hSview, hSwf, hSsib⟩ :=
      getSiblingBundle_spec hgs hdyn.2.1 hdyn.2.2
    cases hbb : getAssoc (addAssetToBundle stS sib aid).bundles ds.2 with
    | none =>
      rw [hbb] at hv
      dsimp only at hv
      exact absurd hv (by simp)
    | some bb =>
      rw [hbb] at hv
      cases ha2 : getAssoc (addAssetToBundle stS sib aid).assets aid with
      | none =>
        rw [ha2] at hv
        dsimp only at hv
        exact absurd hv (by simp)
      | some a2 =>
        rw [ha2] at hv
        dsimp only at hv
        cases hg : a2.generated with
        | none =>
          rw [hg] at hv
          dsimp only at hv
          exact absurd hv (by simp)
        | some g =>
          rw [hg] at hv
          dsimp only at hv
          cases hdeps : cbtDeps outDir fuel
              (updAsset (if (getAssoc g bb.type).isSome = true
                  then addAssetToBundle (addAssetToBundle stS sib aid) ds.2 aid
                  else addAssetToBundle stS sib aid) aid
                (fun a => { a with parentBundle := some ds.2 })) aid
              asset.dependencies ds.2 with
          | none =>
            rw [hdeps] at hv
            exact absurd hv (by simp)
          | some stD =>
            rw [hdeps] at hv
            simp only [Option.map_some', Option.some_inj, Prod.mk.injEq] at hv
            obtain ⟨hst, hr⟩ := hv
            refine ⟨ds, stS, sib, g, bb, rfl, hgs, ?_, hbb, ⟨a2, ha2, hg⟩, ?_, ?_, ?_, ?_⟩
            · exact ⟨{ sb0 with assets := addSet sb0.assets aid },
                addAssetToBundle_bundle_self aid hsb0, hsbty, mem_addSet_self _ _⟩
            · by_cases hc : (getAssoc g bb.type).isSome = true
              · refine ⟨{ bb with assets := addSet bb.assets aid }, ?_, ?_⟩
                · rw [if_pos hc]
                  exact addAssetToBundle_bundle_self aid hbb
                · constructor
                  · intro _
                    exact Or.inl hc
                  · intro _
                    exact mem_addSet_self bb.assets aid
              · refine ⟨bb, ?_, ?_⟩
                · rw [if_neg hc]
                  exact hbb
                · simp [hc]
            · intro hc
              rw [Option.isSome_iff_exists] at hc
              obtain ⟨v, hvk⟩ := hc
              exact List.mem_map_of_mem Prod.fst (getAssoc_mem hvk)
            · rw [← hst]
              exact hdeps
            · exact hr.symm

theorem C5_visit_adds_memberships_witness :
    (cbtVisit "/out" 2 stY 2 (some depS) (some 0) aY = some (stYv, some 0) ∧
      BundleIdsWF stY ∧ SibTypesOK stY) ∧
    (∃ ds stS sib g bb,
      ds = cbtDynStep "/out" (cbtRootStep "/out" stY 2 (some 0) aY) 2 (some depS) aY ∧
      getSiblingBundle ds.1 ds.2 aY.type = some (stS, sib) ∧
      (∃ sb, getAssoc (addAssetToBundle stS sib 2).bundles sib = some sb ∧
        sb.type = aY.type ∧ 2 ∈ sb.assets) ∧
      getAssoc (addAssetToBundle stS sib 2).bundles ds.2 = some bb ∧
      (∃ a2, getAssoc (addAssetToBundle stS sib 2).assets 2 = some a2 ∧
        a2.generated = some g) ∧
      (∃ cb, getAssoc (if (getAssoc g bb.type).isSome = true
            then addAssetToBundle (addAssetToBundle stS sib 2) ds.2 2
            else addAssetToBundle stS sib 2).bundles ds.2 = some cb ∧
        (2 ∈ cb.assets ↔ ((getAssoc g bb.type).isSome = true ∨ 2 ∈ bb.assets))) ∧
      ((getAssoc g bb.type).isSome = true → bb.type ∈ g.map Prod.fst) ∧
      cbtDeps "/out" 1
        (updAsset (if (getAssoc g bb.type).isSome = true
            then addAssetToBundle (addAssetToBundle stS sib 2) ds.2 2
            else addAssetToBundle stS sib 2) 2
          (fun a => { a with parentBundle := some ds.2 })) 2
        aY.dependencies ds.2 = some stYv ∧
      (some 0 : Option Nat) = some ds.2) :=
  ⟨⟨by decide, by decide, by decide⟩,
   C5_visit_adds_memberships "/out" 1 stY 2 (some depS) (some 0) aY stYv (some 0)
     (by decide) (by decide) (by decide)⟩

/-- C5 counterexample to the claim's "non-empty" guard: visiting the
stylesheet asset `aY` (whose `js` artifact is the empty string, hence
present but empty) from the `js` bundle 0 of `stY` adds it to bundle 0
itself — the code tests `generated[bundle.type] != null`, not
non-emptiness. -/
theorem C5_empty_artifact_counterexample :
    ((createBundleTree "/out" 3 stY 2 (some depS) (some 0)).map
      (fun p =>
        ((getAssoc p.1.bundles 0).map (fun b => b.assets),
         (getAssoc p.1.assets 2).bind
           (fun a => a.generated.map (fun g => getAssoc g "js"))))) =
      some (some [2], some (some "")) := by
  decide

/-! ## C1: view and reachability lemmas for `moveAssetToBundle` -/

theorem pview_eq_of_assets_eq {st st' : BundlerState} (h : st'.assets = st.assets)
    (x : Nat) : pview st' x = pview st x := by
  unfold pview
  rw [h]

theorem eview_eq_of_assets_eq {st st' : BundlerState} (h : st'.assets = st.assets)
    (x : Nat) : eview st' x = eview st x := by
  unfold eview
  rw [h]

theorem pview_updAsset {st : BundlerState} {aid : Nat} {f : Asset → Asset}
    (hf : ∀ a, (f a).parentBundle = a.parentBundle) (x : Nat) :
    pview (updAsset st aid f) x = pview st x := by
  unfold pview
  rw [getAssoc_updAsset]
  by_cases hx : x = aid
  · subst hx
    rw [if_pos rfl]
    cases h : getAssoc st.assets x with
    | none => simp
    | some a => simp [hf a]
  · rw [if_neg hx]

theorem eview_updAsset {st : BundlerState} {aid : Nat} {f : Asset → Asset}
    (hf : ∀ a, (f a).depAssets = a.depAssets) (x : Nat) :
    eview (updAsset st aid f) x = eview st x := by
  unfold eview
  rw [getAssoc_updAsset]
  by_cases hx : x = aid
  · subst hx
    rw [if_pos rfl]
    cases h : getAssoc st.assets x with
    | none => simp
    | some a => simp [hf a]
  · rw [if_neg hx]

theorem pview_updAsset_parent {st : BundlerState} {aid : Nat} {p : Option Nat}
    (hx : (getAssoc st.assets aid).isSome = true) (x : Nat) :
    pview (updAsset st aid (fun a => { a with parentBundle := p })) x =
      if x = aid then some p else pview st x := by
  unfold pview
  rw [getAssoc_updAsset]
  by_cases h : x = aid
  · subst h
    rw [if_pos rfl, if_pos rfl]
    obtain ⟨a, ha⟩ := Option.isSome_iff_exists.mp hx
    rw [ha]
    rfl
  · rw [if_neg h, if_neg h]

theorem pview_addAssetToBundle (st : BundlerState) (bid aid x : Nat) :
    pview (addAssetToBundle st bid aid) x = pview st x := by
  unfold pview
  rw [addAssetToBundle_assets]
  by_cases hx : x = aid
  · subst hx
    rw [if_pos rfl]
    cases h : getAssoc st.assets x with
    | none => simp
    | some a => simp
  · rw [if_neg hx]

theorem eview_addAssetToBundle (st : BundlerState) (bid aid x : Nat) :
    eview (addAssetToBundle st bid aid) x = eview st x := by
  unfold eview
  rw [addAssetToBundle_assets]
  by_cases hx : x = aid
  · subst hx
    rw [if_pos rfl]
    cases h : getAssoc st.assets x with
    | none => simp
    | some a => simp
  · rw [if_neg hx]

theorem removeAssetFromBundle_assets (st : BundlerState) (bid aid x : Nat) :
    getAssoc (removeAssetFromBundle st bid aid).assets x =
      if x = aid then
        (getAssoc st.assets x).map (fun a => { a with bundles := removeSet a.bundles bid })
      else getAssoc st.assets x := by
  unfold removeAssetFromBundle
  dsimp only
  rw [getAssoc_updAsset]
  rw [updBundle_assets]
  by_cases hx : x = aid
  · rw [if_pos hx, if_pos hx]
    rw [hx]
  · rw [if_neg hx, if_neg hx]

theorem pview_removeAssetFromBundle (st : BundlerState) (bid aid x : Nat) :
    pview (removeAssetFromBundle st bid aid) x = pview st x := by
  unfold pview
  rw [removeAssetFromBundle_assets]
  by_cases hx : x = aid
  · subst hx
    rw [if_pos rfl]
    cases h : getAssoc st.assets x with
    | none => simp
    | some a => simp
  · rw [if_neg hx]

theorem eview_removeAssetFromBundle (st : BundlerState) (bid aid x : Nat) :
    eview (removeAssetFromBundle st bid aid) x = eview st x := by
  unfold eview
  rw [removeAssetFromBundle_assets]
  by_cases hx : x = aid
  · subst hx
    rw [if_pos rfl]
    cases h : getAssoc st.assets x with
    | none => simp
    | some a => simp
  · rw [if_neg hx]

theorem getSiblingBundle_assets {st : BundlerState} {bid : Nat} {ty : String}
    {st' : BundlerState} {sib : Nat}
    (h : getSiblingBundle st bid ty = some (st', sib)) : st'.assets = st.assets := by
  unfold getSiblingBundle at h
  cases hb : getAssoc st.bundles bid with
  | none =>
    rw [hb] at h
    exact absurd h (by simp)
  | some b =>
    rw [hb] at h
    dsimp only at h
    by_cases hty : b.type = ty
    · rw [if_pos hty] at h
      simp only [Option.some_inj, Prod.mk.injEq] at h
      rw [← h.1]
    · rw [if_neg hty] at h
      cases hsid : getAssoc b.siblingBundles ty with
      | some sid =>
        rw [hsid] at h
        simp only [Option.some_inj, Prod.mk.injEq] at h
        rw [← h.1]
      | none =>
        rw [hsid] at h
        dsimp only at h
        simp only [Option.some_inj, Prod.mk.injEq] at h
        rw [← h.1]
        rw [updBundle_assets]
        unfold createChildBundle
        dsimp only
        rw [updBundle_assets]

theorem moveMembership_views {aid common : Nat} :
    ∀ (l : List Nat) (st st' : BundlerState),
      moveMembership aid common st l = some st' →
      (∀ x, pview st' x = pview st x) ∧ (∀ x, eview st' x = eview st x) := by
  intro l
  induction l with
  | nil =>
    intro st st' h
    rw [moveMembership] at h
    simp only [Option.some_inj] at h
    subst h
    exact ⟨fun x => rfl, fun x => rfl⟩
  | cons bid rest ihl =>
    intro st st' h
    rw [moveMembership] at h
    cases hb : getAssoc st.bundles bid with
    | none =>
      rw [hb] at h
      exact absurd h (by simp)
    | some b =>
      rw [hb] at h
      dsimp only at h
      cases hgs : getSiblingBundle (removeAssetFromBundle st bid aid) common b.type with
      | none =>
        rw [hgs] at h
        exact absurd h (by simp)
      | some p =>
        obtain ⟨st2, sib⟩ := p
        rw [hgs] at h
        dsimp only at h
        obtain ⟨hp, he⟩ := ihl (addAssetToBundle st2 sib aid) st' h
        have hsa := getSiblingBundle_assets hgs
        constructor
        · intro x
          rw [hp x, pview_addAssetToBundle, pview_eq_of_assets_eq hsa,
            pview_removeAssetFromBundle]
        · intro x
          rw [he x, eview_addAssetToBundle, eview_eq_of_assets_eq hsa,
            eview_removeAssetFromBundle]

theorem ReachOld_trans {st : BundlerState} {old : Option Nat} {r y x : Nat}
    (h1 : ReachOld st old r y) (h2 : ReachOld st old y x) : ReachOld st old r x := by
  induction h2 with
  | refl => exact h1
  | step hy hes hc hpc ih => exact ReachOld.step ih hes hc hpc

theorem ReachOld_mono {stA stB : BundlerState} {old : Option Nat} {r x : Nat}
    (he : ∀ z, eview stA z = eview stB z)
    (hp : ∀ z, pview stA z = some old → pview stB z = some old)
    (h : ReachOld stA old r x) : ReachOld stB old r x := by
  induction h with
  | refl => exact ReachOld.refl
  | step hy hes hc hpc ih => exact ReachOld.step ih ((he _).symm.trans hes) hc (hp _ hpc)

theorem reach_label {st : BundlerState} {old : Option Nat} {r x : Nat}
    (hr : pview st r = some old) (h : ReachOld st old r x) : pview st x = some old := by
  induction h with
  | refl => exact hr
  | step hy hes hc hpc ih => exact hpc

/-- The DFS-marking invariants of `moveAssetToBundle`/`moveChildren`,
proved by simultaneous fuel induction: edges are untouched, parents only
ever change to `common`, parents already `common` persist, every change
is sound for `ReachOld`, the root ends parented to `common`, every child
with the old parent ends parented to `common`, and every newly re-homed
asset has had its dependency edges swept clean of the old parent. -/
theorem move_marks (fuel : Nat) :
    (∀ st aid common st' asset,
      moveAssetToBundle fuel st aid common = some st' →
      getAssoc st.assets aid = some asset →
      asset.parentBundle ≠ some common →
      MoveFrame st st' ∧ MoveMono common st st' ∧ MovePersist common st st' ∧
      (∀ x, pview st' x ≠ pview st x → ReachOld st asset.parentBundle aid x) ∧
      pview st' aid = some (some common) ∧
      MoveClosed asset.parentBundle common st st') ∧
    (∀ st cs old common st',
      moveChildren fuel st cs old common = some st' →
      old ≠ some common →
      MoveFrame st st' ∧ MoveMono common st st' ∧ MovePersist common st st' ∧
      (∀ x, pview st' x ≠ pview st x →
        ∃ c, c ∈ cs ∧ pview st c = some old ∧ ReachOld st old c x) ∧
      (∀ c, c ∈ cs → pview st c = some old → pview st' c = some (some common)) ∧
      MoveClosed old common st st') := by
  induction fuel with
  | zero =>
    constructor
    · intro st aid common st' asset h ha hold
      rw [moveAssetToBundle.eq_def] at h
      dsimp only at h
      exact absurd h (by simp)
    · intro st cs old common st' h hold
      rw [moveChildren.eq_def] at h
      dsimp only at h
      exact absurd h (by simp)
  | succ fuel ih =>
    obtain ⟨ihM, ihC⟩ := ih
    constructor
    · intro st aid common st' asset h ha hold
      rw [moveAssetToBundle.eq_def] at h
      dsimp only at h
      rw [ha] at h
      dsimp only at h
      cases hmm : moveMembership aid common st asset.bundles with
      | none =>
        rw [hmm] at h
        dsimp only at h
        exact absurd h (by simp)
      | some st1 =>
        rw [hmm] at h
        dsimp only at h
        set stU := updAsset st1 aid (fun a => { a with parentBundle := some common })
          with hstU
        obtain ⟨hp1, he1⟩ := moveMembership_views asset.bundles st st1 hmm
        have hsome1 : (getAssoc st1.assets aid).isSome = true := by
          have hpv := hp1 aid
          unfold pview at hpv
          rw [ha] at hpv
          cases hg : getAssoc st1.assets aid with
          | none =>
            rw [hg] at hpv
            exact absurd hpv (by simp)
          | some a => simp [hg]
        have hp2 : ∀ x, pview stU x =
            if x = aid then some (some common) else pview st x := by
          intro x
          rw [hstU, pview_updAsset_parent hsome1 x]
          by_cases hx : x = aid
          · rw [if_pos hx, if_pos hx]
          · rw [if_neg hx, if_neg hx, hp1 x]
        have he2 : ∀ x, eview stU x = eview st x := by
          intro x
          rw [hstU]
          rw [@eview_updAsset st1 aid (fun a => { a with parentBundle := some common })
            (fun a => rfl) x]
          exact he1 x
        obtain ⟨hF, hM, hP, hS, hC, hCl⟩ :=
          ihC stU (asset.depAssets.map Prod.snd) asset.parentBundle common st' h hold
        refine ⟨?_, ?_, ?_, ?_, ?_, ?_⟩
        · intro x
          rw [hF x, he2 x]
        · intro x
          rcases hM x with h1 | h1
          · rw [h1, hp2 x]
            by_cases hx : x = aid
            · rw [if_pos hx]
              exact Or.inr rfl
            · rw [if_neg hx]
              exact Or.inl rfl
          · exact Or.inr h1
        · intro x hx
          refine hP x ?_
          rw [hp2 x]
          by_cases hxa : x = aid
          · rw [if_pos hxa]
          · rw [if_neg hxa]
            exact hx
        · intro x hne
          by_cases hxa : x = aid
          · rw [hxa]
            exact ReachOld.refl
          · have hU : pview stU x = pview st x := by rw [hp2 x, if_neg hxa]
            have hne' : pview st' x ≠ pview stU x := by
              rw [hU]
              exact hne
            obtain ⟨c, hcmem, hcl, hcr⟩ := hS x hne'
            have hca : c ≠ aid := by
              intro hceq
              rw [hceq, hp2 aid, if_pos rfl] at hcl
              exact hold (Option.some_inj.mp hcl).symm
            have hclst : pview st c = some asset.parentBundle := by
              rw [hp2 c, if_neg hca] at hcl
              exact hcl
            have hcr' : ReachOld st asset.parentBundle c x := by
              refine ReachOld_mono (fun z => he2 z) ?_ hcr
              intro z hz
              by_cases hza : z = aid
              · rw [hza, hp2 aid, if_pos rfl] at hz
                exact absurd (Option.some_inj.mp hz).symm hold
              · rw [hp2 z, if_neg hza] at hz
                exact hz
            have hstep : ReachOld st asset.parentBundle aid c := by
              refine ReachOld.step ReachOld.refl ?_ hcmem hclst
              unfold eview
              rw [ha]
              rfl
            exact ReachOld_trans hstep hcr'
        · refine hP aid ?_
          rw [hp2 aid, if_pos rfl]
        · intro x hx0 hx1 es hes y hy
          by_cases hxa : x = aid
          · subst hxa
            have hesv : es = asset.depAssets.map Prod.snd := by
              unfold eview at hes
              rw [ha] at hes
              exact (Option.some_inj.mp hes).symm
            intro hcon
            rcases hM y with h1 | h1
            · have hyU : pview stU y = some asset.parentBundle := by
                rw [← h1]
                exact hcon
              have hfin := hC y (by rw [hesv] at hy; exact hy) hyU
              rw [hfin] at hcon
              exact hold (Option.some_inj.mp hcon).symm
            · rw [h1] at hcon
              exact hold (Option.some_inj.mp hcon).symm
          · have hxU : pview stU x = pview st x := by rw [hp2 x, if_neg hxa]
            have hx0' : pview stU x ≠ some (some common) := by
              rw [hxU]
              exact hx0
            have hesU : eview stU x = some es := by
              rw [he2 x]
              exact hes
            exact hCl x hx0' hx1 es hesU y hy
    · intro st cs old common st' h hold
      rw [moveChildren.eq_def] at h
      dsimp only at h
      cases cs with
      | nil =>
        dsimp only at h
        simp only [Option.some_inj] at h
        subst h
        refine ⟨fun x => rfl, fun x => Or.inl rfl, fun x hx => hx, ?_, ?_, ?_⟩
        · intro x hne
          exact absurd rfl hne
        · intro c hc hcl
          exact absurd hc (List.not_mem_nil c)
        · intro x hx0 hx1
          exact absurd hx1 hx0
      | cons c rest =>
        dsimp only at h
        cases hc : getAssoc st.assets c with
        | none =>
          rw [hc] at h
          dsimp only at h
          exact absurd h (by simp)
        | some child =>
          rw [hc] at h
          dsimp only at h
          by_cases hfil : child.parentBundle = old
          · rw [if_pos hfil] at h
            cases hmv : moveAssetToBundle fuel st c common with
            | none =>
              rw [hmv] at h
              dsimp only at h
              exact absurd h (by simp)
            | some st1 =>
              rw [hmv] at h
              dsimp only at h
              have hold1 : child.parentBundle ≠ some common := by
                rw [hfil]
                exact hold
              obtain ⟨hF1, hM1, hP1, hS1, hR1, hCl1⟩ := ihM st c common st1 child hmv hc hold1
              obtain ⟨hF2, hM2, hP2, hS2, hC2, hCl2⟩ := ihC st1 rest old common st' h hold
              have hlab : pview st c = some old := by
                unfold pview
                rw [hc]
                simp [hfil]
              have hmono1 : ∀ z, pview st1 z = some old → pview st z = some old := by
                intro z hz
                rcases hM1 z with h1 | h1
                · rw [← h1]
                  exact hz
                · rw [h1] at hz
                  exact absurd (Option.some_inj.mp hz).symm hold
              refine ⟨?_, ?_, ?_, ?_, ?_, ?_⟩
              · intro x
                rw [hF2 x, hF1 x]
              · intro x
                rcases hM2 x with h2 | h2
                · rcases hM1 x with h1 | h1
                  · exact Or.inl (h2.trans h1)
                  · exact Or.inr (h2.trans h1)
                · exact Or.inr h2
              · intro x hx
                exact hP2 x (hP1 x hx)
              · intro x hne
                by_cases hmid : pview st' x = pview st1 x
                · have hne1 : pview st1 x ≠ pview st x := by
                    rw [← hmid]
                    exact hne
                  have hr := hS1 x hne1
                  rw [hfil] at hr
                  exact ⟨c, List.mem_cons_self c rest, hlab, hr⟩
                · obtain ⟨c2, hc2mem, hc2lab, hc2r⟩ := hS2 x hmid
                  have hc2r' : ReachOld st old c2 x :=
                    ReachOld_mono (fun z => hF1 z) hmono1 hc2r
                  exact ⟨c2, List.mem_cons_of_mem c hc2mem, hmono1 c2 hc2lab, hc2r'⟩
              · intro c' hc'mem hc'lab
                rcases List.mem_cons.mp hc'mem with hceq | hcrest
                · subst hceq
                  exact hP2 c' hR1
                · rcases hM1 c' with h1 | h1
                  · refine hC2 c' hcrest ?_
                    rw [h1]
                    exact hc'lab
                  · exact hP2 c' h1
              · intro x hx0 hx1 es hes y hy
                by_cases hmid : pview st1 x = some (some common)
                · have hcl := hCl1 x hx0 hmid es hes y hy
                  rw [hfil] at hcl
                  rcases hM2 y with h2 | h2
                  · rw [h2]
                    exact hcl
                  · rw [h2]
                    intro hcon
                    exact hold (Option.some_inj.mp hcon).symm
                · have hes1 : eview st1 x = some es := by
                    rw [hF1 x]
                    exact hes
                  exact hCl2 x hmid hx1 es hes1 y hy
          · rw [if_neg hfil] at h
            obtain ⟨hF2, hM2, hP2, hS2, hC2, hCl2⟩ := ihC st rest old common st' h hold
            refine ⟨hF2, hM2, hP2, ?_, ?_, hCl2⟩
            · intro x hne
              obtain ⟨c2, hc2mem, hc2lab, hc2r⟩ := hS2 x hne
              exact ⟨c2, List.mem_cons_of_mem c hc2mem, hc2lab, hc2r⟩
            · intro c' hc'mem hc'lab
              rcases List.mem_cons.mp hc'mem with hceq | hcrest
              · subst hceq
                exfalso
                apply hfil
                unfold pview at hc'lab
                rw [hc] at hc'lab
                simp only [Option.map_some', Option.some_inj] at hc'lab
                exact hc'lab
              · exact hC2 c' hcrest hc'lab

/-- Completeness of the DFS marking: everything `ReachOld`-reachable from
the moved root ends up parented to `common`, derived from the closure
invariant by induction along the reachability path. -/
theorem move_complete {st st' : BundlerState} {old : Option Nat} {aid common : Nat}
    (hrootlabel : pview st aid = some old)
    (hold : old ≠ some common)
    (hroot : pview st' aid = some (some common))
    (hmono : MoveMono common st st')
    (hclosed : MoveClosed old common st st') :
    ∀ x, ReachOld st old aid x → pview st' x = some (some common) := by
  intro x h
  induction h with
  | refl => exact hroot
  | @step y c es hy hes hc hpc ih =>
    have hylab := reach_label hrootlabel hy
    have hyne : pview st y ≠ some (some common) := by
      rw [hylab]
      intro hcon
      exact hold (Option.some_inj.mp hcon)
    have hncl := hclosed y hyne ih es hes c hc
    rcases hmono c with h1 | h1
    · exact absurd (h1.trans hpc) hncl
    · exact h1

/-- Definitional unfolding of `createBundleTree` at positive fuel. -/
theorem createBundleTree_succ (outDir : String) (fuel : Nat) (st : BundlerState)
    (aid : Nat) (dep : Option Dep) (bundleId : Option Nat) :
    createBundleTree outDir (fuel + 1) st aid dep bundleId =
      (match getAssoc st.assets aid with
       | none => none
       | some asset =>
         match asset.parentBundle with
         | some pb => cbtHoist fuel (parentDepsUpd st aid dep) aid bundleId pb
         | none => cbtVisit outDir fuel (parentDepsUpd st aid dep) aid dep bundleId asset) := by
  cases dep <;> rfl

/-- C1: when `createBundleTree` visits an asset whose `parentBundle` is
already set, the visit never recurses into the dependencies (the JS
`return;`, here return value `none`).  If the current bundle equals the
parent bundle nothing changes.  Otherwise the lowest common ancestor
`common` of the two bundles is computed; when the parent bundle is
`common` itself or its type differs from `common`'s, nothing changes; when
it differs from `common` and the types agree, the result is exactly
`moveAssetToBundle` to `common`: dependency edges are untouched, the
asset's `parentBundle` becomes `common`, every asset transitively
reachable through dependencies still parented to the old bundle is
re-parented to `common`, and every other asset keeps its parent. -/
theorem C1_hoist_to_lca
    (outDir : String) (fuel : Nat) (st : BundlerState) (aid : Nat)
    (dep : Option Dep) (bundleId : Option Nat) (asset : Asset) (pb : Nat)
    (res : BundlerState × Option Nat)
    (ha : getAssoc st.assets aid = some asset)
    (hpb : asset.parentBundle = some pb)
    (h : createBundleTree outDir (fuel + 1) st aid dep bundleId = some res) :
    res.2 = none ∧
    (∃ b, bundleId = some b) ∧
    ∃ st0,
      st0 = parentDepsUpd st aid dep ∧
      ((bundleId = some pb → res.1 = st0) ∧
       (∀ b, bundleId = some b → b ≠ pb →
         ∃ common pbB cB,
           findCommonAncestor st0 b pb = some common ∧
           getAssoc st0.bundles pb = some pbB ∧
           getAssoc st0.bundles common = some cB ∧
           ((pb = common ∨ pbB.type ≠ cB.type) → res.1 = st0) ∧
           (pb ≠ common → pbB.type = cB.type →
             moveAssetToBundle fuel st0 aid common = some res.1 ∧
             MoveFrame st0 res.1 ∧
             pview res.1 aid = some (some common) ∧
             (∀ x, ReachOld st0 (some pb) aid x → pview res.1 x = some (some common)) ∧
             (∀ x, ¬ ReachOld st0 (some pb) aid x → pview res.1 x = pview st0 x)))) := by
  rw [createBundleTree_succ] at h
  rw [ha] at h
  dsimp only at h
  rw [hpb] at h
  dsimp only at h
  set st0 := parentDepsUpd st aid dep with hst0
  have ha0 : ∃ asset', getAssoc st0.assets aid = some asset' ∧
      asset'.parentBundle = some pb ∧ asset'.depAssets = asset.depAssets := by
    rw [hst0]
    cases dep with
    | none => exact ⟨asset, ha, hpb, rfl⟩
    | some d =>
      dsimp only [parentDepsUpd]
      refine ⟨{ asset with parentDeps := addSet asset.parentDeps d }, ?_, hpb, rfl⟩
      rw [getAssoc_updAsset]
      rw [if_pos rfl]
      rw [ha]
      rfl
  obtain ⟨asset', ha', hpb', hda'⟩ := ha0
  unfold cbtHoist at h
  by_cases hbid : bundleId = some pb
  · rw [if_pos hbid] at h
    simp only [Option.some_inj] at h
    subst h
    refine ⟨rfl, ⟨pb, hbid⟩, st0, rfl, fun _ => rfl, ?_⟩
    intro b hb hne
    rw [hbid] at hb
    exact absurd (Option.some_inj.mp hb).symm hne
  · rw [if_neg hbid] at h
    cases bundleId with
    | none =>
      dsimp only at h
      exact absurd h (by simp)
    | some b =>
      dsimp only at h
      cases hfca : findCommonAncestor st0 b pb with
      | none =>
        rw [hfca] at h
        exact absurd h (by simp)
      | some common =>
        rw [hfca] at h
        dsimp only at h
        cases hpbB : getAssoc st0.bundles pb with
        | none =>
          rw [hpbB] at h
          dsimp only at h
          exact absurd h (by simp)
        | some pbB =>
          rw [hpbB] at h
          cases hcB : getAssoc st0.bundles common with
          | none =>
            rw [hcB] at h
            dsimp only at h
            exact absurd h (by simp)
          | some cB =>
            rw [hcB] at h
            dsimp only at h
            by_cases hcond : pb ≠ common ∧ pbB.type = cB.type
            · rw [if_pos hcond] at h
              cases hmv : moveAssetToBundle fuel st0 aid common with
              | none =>
                rw [hmv] at h
                exact absurd h (by simp)
              | some stM =>
                rw [hmv] at h
                simp only [Option.map_some', Option.some_inj] at h
                subst h
                have hne : (some pb : Option Nat) ≠ some common := by
                  intro hcon
                  exact hcond.1 (Option.some_inj.mp hcon)
                obtain ⟨hFr, hMo, hPe, hSo, hRt, hClo⟩ :=
                  (move_marks fuel).1 st0 aid common stM asset' hmv ha'
                    (by rw [hpb']; exact hne)
                rw [hpb'] at hSo hClo
                have hrl : pview st0 aid = some (some pb) := by
                  unfold pview
                  rw [ha']
                  simp [hpb']
                have hcomp := move_complete hrl hne hRt hMo hClo
                refine ⟨rfl, ⟨b, rfl⟩, st0, rfl, ?_, ?_⟩
                · intro hcon
                  exact absurd hcon hbid
                · intro b' hb' hne'
                  have hbeq : b = b' := Option.some_inj.mp hb'
                  subst hbeq
                  refine ⟨common, pbB, cB, hfca, hpbB, hcB, ?_, ?_⟩
                  · intro hdis
                    exfalso
                    rcases hdis with hdis | hdis
                    · exact hcond.1 hdis
                    · exact hdis hcond.2
                  · intro hne2 hty
                    refine ⟨hmv, hFr, hRt, hcomp, ?_⟩
                    intro x hnr
                    by_contra hcon
                    exact hnr (hSo x hcon)
            · rw [if_neg hcond] at h
              simp only [Option.some_inj] at h
              subst h
              refine ⟨rfl, ⟨b, rfl⟩, st0, rfl, ?_, ?_⟩
              · intro hcon
                exact absurd hcon hbid
              · intro b' hb' hne'
                have hbeq : b = b' := Option.some_inj.mp hb'
                subst hbeq
                refine ⟨common, pbB, cB, hfca, hpbB, hcB, fun _ => rfl, ?_⟩
                intro hne2 hty
                exfalso
                exact hcond ⟨hne2, hty⟩

theorem C1_hoist_to_lca_witness :
    (getAssoc stL.assets 5 = some aS ∧ aS.parentBundle = some 1 ∧
      createBundleTree "/out" 6 stL 5 none (some 2) = some (stLf, none)) ∧
    ((none : Option Nat) = none ∧
     (∃ b, (some 2 : Option Nat) = some b) ∧
     ∃ st0, st0 = stL ∧
       (((some 2 : Option Nat) = some 1 → stLf = st0) ∧
        (∀ b, (some 2 : Option Nat) = some b → b ≠ 1 →
          ∃ common pbB cB,
            findCommonAncestor st0 b 1 = some common ∧
            getAssoc st0.bundles 1 = some pbB ∧
            getAssoc st0.bundles common = some cB ∧
            ((1 = common ∨ pbB.type ≠ cB.type) → stLf = st0) ∧
            (1 ≠ common → pbB.type = cB.type →
              moveAssetToBundle 5 st0 5 common = some stLf ∧
              MoveFrame st0 stLf ∧
              pview stLf 5 = some (some common) ∧
              (∀ x, ReachOld st0 (some 1) 5 x → pview stLf x = some (some common)) ∧
              (∀ x, ¬ ReachOld st0 (some 1) 5 x → pview stLf x = pview st0 x))))) :=
  ⟨⟨by decide, by decide, by decide⟩,
   C1_hoist_to_lca "/out" 5 stL 5 none (some 2) aS 1 (stLf, none)
     (by decide) (by decide) (by decide)⟩

end ACFT
